import Mathlib

/-!
# engine::impl::ConditionVariableAny

A shallow embedding of `core/src/engine/condition_variable_any.hpp`
(`CvWaitStrategy` and `ConditionVariableAny`) as state-passing functions over
a `World`, seen from the task that runs the code.  Every call the task makes
on the wait list, the user lock and its task context is appended to
`World.trace`, so that statements about which operations happen, and in which
order, are statements about that list.
-/

namespace engine
namespace impl

/-- Identity (address) of a task context. -/
abbrev TaskContext := Nat

/-- The enum `TaskContext::WakeupSource` named in the switch of `WaitUntil`. -/
inductive WakeupSource where
  | kNone
  | kWaitList
  | kDeadlineTimer
  | kCancelRequest
  | kBootstrap
  deriving DecidableEq, Repr

/-- The enum `CvStatus` returned by the non-predicate waits. -/
inductive CvStatus where
  | kNoTimeout
  | kTimeout
  | kCancelled
  deriving DecidableEq, Repr

/-- One entry of the trace: a call made by the running task.  `predicate r`
is an evaluation of the user predicate with result `r`; `status s` marks the
assignment `status = WaitUntil(lock, deadline)` in the predicate loop. -/
inductive Op where
  | isReached
  | getCurrentTaskContext
  | shouldCancel
  | sleep
  | accountSpuriousWakeup
  | waitersScopeEnter
  | waitersScopeLeave
  | waitersLock
  | waitersUnlock
  | append (t : TaskContext)
  | remove (t : TaskContext)
  | wakeupOne
  | wakeupAll
  | getCountOfSleepies
  | mutexLock
  | mutexUnlock
  | predicate (r : Bool)
  | status (s : CvStatus)
  deriving DecidableEq, Repr

/-- Ways in which a call does not return to the caller. -/
inductive Fault where
  /-- a fatal assertion failed -/
  | abort
  /-- the `std::unique_lock` was used against its ownership state -/
  | system_error
  /-- the running task acquires a mutex it already holds -/
  | deadlock
  /-- the loop bound of the embedding was reached (not a behaviour of the code) -/
  | fuel
  deriving DecidableEq, Repr

/-- Modelled from the spec: `WaitList` (wait_list.hpp is not part of the
sources).  A FIFO queue of task contexts, the lock-free sleepies counter, the
internal mutex (`locked`: held by the running task) and the waiters scope
counter. -/
structure WaitList where
  queue : List TaskContext
  sleepies : Nat
  locked : Bool
  waitersScope : Nat
  deriving DecidableEq, Repr

/-- The state the code runs in.  `waiters_` is the member of
`ConditionVariableAny`; `lockOwns` is `owns_lock()` of the caller's
`std::unique_lock<MutexType>`; `current` is the running task and
`cancelRequested`, `spuriousWakeups` belong to it; `signalled` lists the tasks
made runnable with `WakeupSource::kWaitList`; `shared` is the user data the
predicate reads. -/
structure World (σ : Type) where
  waiters_ : WaitList
  lockOwns : Bool
  current : TaskContext
  cancelRequested : Bool
  spuriousWakeups : Nat
  signalled : List TaskContext
  now : Nat
  shared : σ
  trace : List Op

/-- A computation over the world that returns a value or stops with a fault. -/
def Exec (σ α : Type) : Type := World σ → Except Fault (α × World σ)

namespace Exec

/-- Return a value, world unchanged. -/
def ret {σ α : Type} (a : α) : Exec σ α := fun w => .ok (a, w)

/-- Sequencing: a fault of the first computation stops the whole. -/
def andThen {σ α β : Type} (x : Exec σ α) (f : α → Exec σ β) : Exec σ β :=
  fun w =>
    match x w with
    | .ok (a, w1) => f a w1
    | .error e => .error e

/-- Stop with a fault. -/
def fail {σ α : Type} (e : Fault) : Exec σ α := fun _ => .error e

/-- Append one call to the trace. -/
def note {σ : Type} (o : Op) : Exec σ Unit :=
  fun w => .ok ((), { w with trace := w.trace ++ [o] })

end Exec

instance (σ : Type) : Monad (Exec σ) where
  pure := Exec.ret
  bind := Exec.andThen

/-- Modelled from the spec: `UASSERT` (utils/assert.hpp is not part of the
sources), the fatal-assertion facility: a violated condition aborts. -/
def UASSERT {σ : Type} (cond : Bool) : Exec σ Unit :=
  if cond then Exec.ret () else Exec.fail Fault.abort

/-- Modelled from the spec: `Deadline` (engine/deadline.hpp is not part of the
sources): an absolute point in time, or the default-constructed deadline that
is never reached. -/
structure Deadline where
  point : Option Nat
  deriving DecidableEq, Repr

/-- The deadline `{}` passed by `Wait`. -/
def Deadline.never : Deadline := ⟨none⟩

/-- Modelled from the spec: is the deadline reached when the clock shows `now`. -/
def Deadline.reached (d : Deadline) (now : Nat) : Bool :=
  match d.point with
  | none => false
  | some t => decide (t ≤ now)

/-- Modelled from the spec: `Deadline::IsReached`, against the clock of the world. -/
def Deadline.IsReached {σ : Type} (d : Deadline) : Exec σ Bool := do
  Exec.note Op.isReached
  fun w => .ok (d.reached w.now, w)

/-- Modelled from the spec: `current_task::GetCurrentTaskContext`. -/
def GetCurrentTaskContext {σ : Type} : Exec σ TaskContext := do
  Exec.note Op.getCurrentTaskContext
  fun w => .ok (w.current, w)

/-- Modelled from the spec: `TaskContext::ShouldCancel`, has a cancellation
request been delivered to the running task. -/
def ShouldCancel {σ : Type} (_current : TaskContext) : Exec σ Bool := do
  Exec.note Op.shouldCancel
  fun w => .ok (w.cancelRequested, w)

/-- Modelled from the spec: `current_task::AccountSpuriousWakeup`, increments
the per-task counter. -/
def AccountSpuriousWakeup {σ : Type} : Exec σ Unit := do
  Exec.note Op.accountSpuriousWakeup
  fun w => .ok ((), { w with spuriousWakeups := w.spuriousWakeups + 1 })

/-- The caller's `std::unique_lock<MutexType>::unlock` (C++ standard library):
an error when the lock is not owned. -/
def mutex_lock_unlock {σ : Type} : Exec σ Unit := do
  Exec.note Op.mutexUnlock
  fun w => if w.lockOwns then .ok ((), { w with lockOwns := false }) else .error Fault.system_error

/-- The caller's `std::unique_lock<MutexType>::lock` (C++ standard library):
an error when the lock is already owned. -/
def mutex_lock_lock {σ : Type} : Exec σ Unit := do
  Exec.note Op.mutexLock
  fun w => if w.lockOwns then .error Fault.system_error else .ok ((), { w with lockOwns := true })

namespace WaitList

/-- Modelled from the spec: `WaitList::Lock`, a scoped acquisition of the
internal mutex; `owns` says whether this object currently holds it. -/
structure Lock where
  owns : Bool
  deriving DecidableEq, Repr

/-- Modelled from the spec: constructing a `WaitList::Lock` acquires the
internal mutex. -/
def Lock.ctor {σ : Type} : Exec σ Lock := do
  Exec.note Op.waitersLock
  fun w =>
    if w.waiters_.locked then .error Fault.deadlock
    else .ok (⟨true⟩, { w with waiters_ := { w.waiters_ with locked := true } })

/-- Modelled from the spec: `WaitList::Lock::unlock`. -/
def Lock.unlock {σ : Type} (l : Lock) : Exec σ Lock := do
  Exec.note Op.waitersUnlock
  fun w =>
    if l.owns then .ok (⟨false⟩, { w with waiters_ := { w.waiters_ with locked := false } })
    else .error Fault.system_error

/-- Modelled from the spec: the destructor of `WaitList::Lock` releases the
mutex when the object still holds it. -/
def Lock.dtor {σ : Type} (l : Lock) : Exec σ Unit :=
  if l.owns then do
    let _ ← l.unlock
    pure ()
  else pure ()

/-- Modelled from the spec: `WaitList::WaitersScopeCounter` construction. -/
def WaitersScopeCounter.ctor {σ : Type} : Exec σ Unit := do
  Exec.note Op.waitersScopeEnter
  fun w => .ok ((), { w with waiters_ := { w.waiters_ with waitersScope := w.waiters_.waitersScope + 1 } })

/-- Modelled from the spec: `WaitList::WaitersScopeCounter` destruction. -/
def WaitersScopeCounter.dtor {σ : Type} : Exec σ Unit := do
  Exec.note Op.waitersScopeLeave
  fun w => .ok ((), { w with waiters_ := { w.waiters_ with waitersScope := w.waiters_.waitersScope - 1 } })

/-- Modelled from the spec: `WaitList::Append(lock, task)`, enqueue at the
tail and count one more sleepy; the lock proves the mutex is held. -/
def Append {σ : Type} (lock : Lock) (task : TaskContext) : Exec σ Unit := do
  Exec.note (Op.append task)
  UASSERT lock.owns
  fun w => .ok ((), { w with waiters_ :=
    { w.waiters_ with queue := w.waiters_.queue ++ [task], sleepies := w.waiters_.sleepies + 1 } })

/-- Modelled from the spec: the queue and counter after unlinking `task`; a
task that is no longer linked is left alone. -/
def unlink (self : WaitList) (task : TaskContext) : WaitList :=
  if task ∈ self.queue then
    { self with queue := self.queue.erase task, sleepies := self.sleepies - 1 }
  else self

/-- Modelled from the spec: `WaitList::Remove(lock, task)`, idempotent. -/
def Remove {σ : Type} (lock : Lock) (task : TaskContext) : Exec σ Unit := do
  Exec.note (Op.remove task)
  UASSERT lock.owns
  fun w => .ok ((), { w with waiters_ := w.waiters_.unlink task })

/-- Modelled from the spec: `WaitList::WakeupOne(lock)`, unlink the head,
count one sleepy less and make the task runnable with
`WakeupSource::kWaitList`; nothing on an empty queue. -/
def WakeupOne {σ : Type} (lock : Lock) : Exec σ Unit := do
  Exec.note Op.wakeupOne
  UASSERT lock.owns
  fun w =>
    match w.waiters_.queue with
    | [] => .ok ((), w)
    | t :: rest =>
      .ok ((), { w with
        waiters_ := { w.waiters_ with queue := rest, sleepies := w.waiters_.sleepies - 1 },
        signalled := w.signalled ++ [t] })

/-- Modelled from the spec: `WaitList::WakeupAll(lock)`, every queued task is
made runnable in one pass. -/
def WakeupAll {σ : Type} (lock : Lock) : Exec σ Unit := do
  Exec.note Op.wakeupAll
  UASSERT lock.owns
  fun w =>
    .ok ((), { w with
      waiters_ := { w.waiters_ with queue := [], sleepies := w.waiters_.sleepies - w.waiters_.queue.length },
      signalled := w.signalled ++ w.waiters_.queue })

/-- Modelled from the spec: `WaitList::GetCountOfSleepies`, read without the
mutex. -/
def GetCountOfSleepies {σ : Type} : Exec σ Nat := do
  Exec.note Op.getCountOfSleepies
  fun w => .ok (w.waiters_.sleepies, w)

end WaitList

/-- The members of `CvWaitStrategy` that carry data: the deadline of the base
class, `waiters_lock_` and `current_`.  `waiters_` and `mutex_lock_` are
references into the world; `waiter_token_` holds no data. -/
structure CvWaitStrategy where
  deadline : Deadline
  waiters_lock_ : WaitList.Lock
  current_ : TaskContext
  deriving DecidableEq, Repr

namespace CvWaitStrategy

/-- The constructor: `waiter_token_(waiters_)`, then `waiters_lock_(waiters_)`. -/
def ctor {σ : Type} (deadline : Deadline) (current : TaskContext) : Exec σ CvWaitStrategy := do
  WaitList.WaitersScopeCounter.ctor
  let waiters_lock_ ← WaitList.Lock.ctor
  pure ⟨deadline, waiters_lock_, current⟩

/-- The destructor, members in reverse order of declaration. -/
def dtor {σ : Type} (self : CvWaitStrategy) : Exec σ Unit := do
  self.waiters_lock_.dtor
  WaitList.WaitersScopeCounter.dtor

/-- The hook `CvWaitStrategy::AfterAsleep`; returns the strategy with its
`waiters_lock_` as the hook leaves it. -/
def AfterAsleep {σ : Type} (self : CvWaitStrategy) : Exec σ CvWaitStrategy := do
  UASSERT (self.current_ == (← GetCurrentTaskContext))
  WaitList.Append self.waiters_lock_ self.current_
  let waiters_lock_ ← self.waiters_lock_.unlock
  mutex_lock_unlock
  pure { self with waiters_lock_ := waiters_lock_ }

/-- The hook `CvWaitStrategy::BeforeAwake`. -/
def BeforeAwake {σ : Type} (self : CvWaitStrategy) : Exec σ Unit := do
  UASSERT (self.current_ == (← GetCurrentTaskContext))
  let guard_waiters ← WaitList.Lock.ctor
  WaitList.Remove guard_waiters self.current_
  guard_waiters.dtor
  mutex_lock_lock

end CvWaitStrategy

/-- Modelled from the spec: what the rest of the system did while the task
was suspended in `TaskContext::Sleep`: the wake source the scheduler chose,
the queue as the other tasks left it, whether a cancellation request was
delivered, the time that passed and the user data. -/
structure Suspension (σ : Type) where
  source : WakeupSource
  queue : List TaskContext
  cancel : Bool
  elapsed : Nat
  shared : σ

/-- Modelled from the spec: the scheduler and the other tasks, as an arbitrary
function of the state in which the task was parked (its trace included). -/
abbrev Scheduler (σ : Type) := World σ → Suspension σ

/-- Modelled from the spec: the suspended task is resumed; the effects of the
other tasks are applied and the chosen wake source is returned. -/
def suspended {σ : Type} (sched : Scheduler σ) : Exec σ WakeupSource :=
  fun w =>
    let s := sched w
    .ok (s.source, { w with
      waiters_ := { w.waiters_ with queue := s.queue, sleepies := s.queue.length },
      cancelRequested := w.cancelRequested || s.cancel,
      now := w.now + s.elapsed,
      shared := s.shared })

/-- Modelled from the spec: `TaskContext::Sleep` (task/task_context.hpp is not
part of the sources).  The task is parked, `AfterAsleep` runs exactly once,
the task stays suspended until a wake source is chosen, `BeforeAwake` runs
exactly once, and the wake source is returned. -/
def Sleep {σ : Type} (sched : Scheduler σ) (wait_manager : CvWaitStrategy) :
    Exec σ (WakeupSource × CvWaitStrategy) := do
  Exec.note Op.sleep
  let wait_manager ← wait_manager.AfterAsleep
  let wakeup_source ← suspended sched
  wait_manager.BeforeAwake
  pure (wakeup_source, wait_manager)

namespace ConditionVariableAny

/-- The member `CvStatus ConditionVariableAny::WaitUntil(lock, deadline)`.  The
destructor of `wait_manager` runs when the function returns; a failed
assertion does not return. -/
def WaitUntil {σ : Type} (sched : Scheduler σ) (deadline : Deadline) : Exec σ CvStatus := do
  if (← deadline.IsReached) then
    pure CvStatus.kTimeout
  else
    let current ← GetCurrentTaskContext
    if (← ShouldCancel current) then
      pure CvStatus.kCancelled
    else
      let wait_manager ← CvWaitStrategy.ctor deadline current
      let (wakeup_source, wait_manager) ← Sleep sched wait_manager
      let status ←
        match wakeup_source with
        | WakeupSource.kCancelRequest => pure CvStatus.kCancelled
        | WakeupSource.kDeadlineTimer => pure CvStatus.kTimeout
        | WakeupSource.kNone => do
          -- UASSERT(!invalid wakeup source); [[fallthrough]]
          UASSERT false
          pure CvStatus.kNoTimeout
        | WakeupSource.kBootstrap => do
          -- UASSERT(!invalid wakeup source); [[fallthrough]]
          UASSERT false
          pure CvStatus.kNoTimeout
        | WakeupSource.kWaitList => pure CvStatus.kNoTimeout
      wait_manager.dtor
      pure status

/-- The member `CvStatus ConditionVariableAny::Wait(lock)`. -/
def Wait {σ : Type} (sched : Scheduler σ) : Exec σ CvStatus :=
  WaitUntil sched Deadline.never

/-- One evaluation of the user predicate, `predicate()`, on the shared data. -/
def evalPredicate {σ : Type} (predicate : σ → Bool) : Exec σ Bool :=
  fun w => .ok (predicate w.shared, { w with trace := w.trace ++ [Op.predicate (predicate w.shared)] })

/-- The body of the `while` loop of the predicate overload; returns the new
values of `predicate_result` and `status`. -/
def WaitUntilBody {σ : Type} (sched : Scheduler σ) (deadline : Deadline) (predicate : σ → Bool) :
    Exec σ (Bool × CvStatus) := do
  let status ← WaitUntil sched deadline
  Exec.note (Op.status status)
  let predicate_result ← evalPredicate predicate
  if !predicate_result && status == CvStatus.kNoTimeout then
    AccountSpuriousWakeup
  else
    pure ()
  pure (predicate_result, status)

/-- The `while` loop of the predicate overload, entered with the current
values of `predicate_result` and `status`; `fuel` bounds the number of
iterations. -/
def WaitUntilLoop {σ : Type} (sched : Scheduler σ) (deadline : Deadline) (predicate : σ → Bool) :
    Nat → Bool → CvStatus → Exec σ Bool
  | 0, predicate_result, status =>
    if !predicate_result && status == CvStatus.kNoTimeout then Exec.fail Fault.fuel
    else pure predicate_result
  | fuel + 1, predicate_result, status =>
    if !predicate_result && status == CvStatus.kNoTimeout then do
      let (predicate_result, status) ← WaitUntilBody sched deadline predicate
      WaitUntilLoop sched deadline predicate fuel predicate_result status
    else pure predicate_result

/-- The member `bool ConditionVariableAny::WaitUntil(lock, deadline, predicate)`;
`fuel` bounds the iterations of its loop. -/
def WaitUntilPred {σ : Type} (sched : Scheduler σ) (fuel : Nat) (deadline : Deadline)
    (predicate : σ → Bool) : Exec σ Bool := do
  let predicate_result ← evalPredicate predicate
  let status := CvStatus.kNoTimeout
  WaitUntilLoop sched deadline predicate fuel predicate_result status

/-- The member `bool ConditionVariableAny::Wait(lock, predicate)`. -/
def WaitPred {σ : Type} (sched : Scheduler σ) (fuel : Nat) (predicate : σ → Bool) : Exec σ Bool :=
  WaitUntilPred sched fuel Deadline.never predicate

/-- The member `void ConditionVariableAny::NotifyOne()`. -/
def NotifyOne {σ : Type} : Exec σ Unit := do
  if (← WaitList.GetCountOfSleepies) != 0 then
    let lock ← WaitList.Lock.ctor
    WaitList.WakeupOne lock
    lock.dtor
  else
    pure ()

/-- The member `void ConditionVariableAny::NotifyAll()`. -/
def NotifyAll {σ : Type} : Exec σ Unit := do
  if (← WaitList.GetCountOfSleepies) != 0 then
    let lock ← WaitList.Lock.ctor
    WaitList.WakeupAll lock
    lock.dtor
  else
    pure ()

end ConditionVariableAny

open ConditionVariableAny

variable {σ : Type}

/-! ## Reading the trace -/

/-- Is the entry one of those written by the predicate loop itself (a predicate
evaluation, a status assignment, a spurious-wakeup account) rather than by
the non-predicate wait. -/
def Op.ofLoop : Op → Bool
  | Op.predicate _ => true
  | Op.status _ => true
  | Op.accountSpuriousWakeup => true
  | _ => false

/-- Is the entry an operation on the wait list or on the user lock. -/
def Op.isSync : Op → Bool
  | Op.waitersScopeEnter => true
  | Op.waitersScopeLeave => true
  | Op.waitersLock => true
  | Op.waitersUnlock => true
  | Op.append _ => true
  | Op.remove _ => true
  | Op.wakeupOne => true
  | Op.wakeupAll => true
  | Op.getCountOfSleepies => true
  | Op.mutexLock => true
  | Op.mutexUnlock => true
  | _ => false

/-- Replays the wait-list lock over a trace, starting from `held`, and says
whether every acquisition of the user lock in the trace happens while the
wait-list lock is not held. -/
def mutexLockOutsideWaitersLock (held : Bool) : List Op → Bool
  | [] => true
  | Op.waitersLock :: rest => mutexLockOutsideWaitersLock true rest
  | Op.waitersUnlock :: rest => mutexLockOutsideWaitersLock false rest
  | Op.mutexLock :: rest => !held && mutexLockOutsideWaitersLock held rest
  | _ :: rest => mutexLockOutsideWaitersLock held rest

/-- The result of the last predicate evaluation in a trace, if any. -/
def lastPredicate : List Op → Option Bool
  | [] => none
  | o :: rest =>
    match lastPredicate rest with
    | some r => some r
    | none =>
      match o with
      | Op.predicate r => some r
      | _ => none

/-- The loop iterations recorded in a trace: each status assignment together
with the predicate evaluation that follows it immediately. -/
def iterations : List Op → List (CvStatus × Bool)
  | Op.status s :: Op.predicate r :: rest => (s, r) :: iterations rest
  | _ :: rest => iterations rest
  | [] => []

/-- Is the iteration one in which the wait returned `kNoTimeout` and the
predicate evaluated right after it was false. -/
def isSpurious (it : CvStatus × Bool) : Bool :=
  it.1 == CvStatus.kNoTimeout && !it.2

/-! ## The wait overloads as one call -/

/-- The four wait overloads of `ConditionVariableAny`. -/
inductive WaitCall (σ : Type) where
  | wait
  | waitPred (fuel : Nat) (predicate : σ → Bool)
  | waitUntil (deadline : Deadline)
  | waitUntilPred (fuel : Nat) (deadline : Deadline) (predicate : σ → Bool)

/-- Run one wait overload; the result is the status of the non-predicate
forms or the boolean of the predicate forms. -/
def WaitCall.run {σ : Type} (sched : Scheduler σ) : WaitCall σ → Exec σ (CvStatus ⊕ Bool)
  | WaitCall.wait => do
    let s ← Wait sched
    pure (Sum.inl s)
  | WaitCall.waitPred fuel predicate => do
    let b ← WaitPred sched fuel predicate
    pure (Sum.inr b)
  | WaitCall.waitUntil deadline => do
    let s ← WaitUntil sched deadline
    pure (Sum.inl s)
  | WaitCall.waitUntilPred fuel deadline predicate => do
    let b ← WaitUntilPred sched fuel deadline predicate
    pure (Sum.inr b)

/-! ## The worlds along one wait

The states a call passes through, written out as functions of the state it
starts in; the lemmas below show that the code computes them. -/

/-- The calls of `WaitUntil` up to the construction of the strategy. -/
def enterOps : List Op :=
  [Op.isReached, Op.getCurrentTaskContext, Op.shouldCancel, Op.waitersScopeEnter, Op.waitersLock]

/-- The calls of the parking half of one `Sleep` by task `c`. -/
def parkOps (c : TaskContext) : List Op :=
  [Op.sleep, Op.getCurrentTaskContext, Op.append c, Op.waitersUnlock, Op.mutexUnlock]

/-- The calls of the waking half of one `Sleep` by task `c`. -/
def wakeOps (c : TaskContext) : List Op :=
  [Op.getCurrentTaskContext, Op.waitersLock, Op.remove c, Op.waitersUnlock, Op.mutexLock]

/-- Every call of one non-predicate wait that parks, by task `c`. -/
def waitOps (c : TaskContext) : List Op :=
  enterOps ++ parkOps c ++ wakeOps c ++ [Op.waitersScopeLeave]

/-- The world in which `WaitUntil` constructs the strategy. -/
def World.checked (w : World σ) : World σ :=
  { w with trace := w.trace ++ [Op.isReached, Op.getCurrentTaskContext, Op.shouldCancel] }

/-- The world in which `WaitUntil` calls `Sleep`. -/
def World.entered (w : World σ) : World σ :=
  { w with
    waiters_ := { w.waiters_ with locked := true, waitersScope := w.waiters_.waitersScope + 1 },
    trace := w.trace ++ enterOps }

/-- The world in which the task is suspended when `Sleep` is called in `w`
with the wait-list mutex and the user lock held. -/
def World.asleep (w : World σ) : World σ :=
  { w with
    waiters_ := { w.waiters_ with
      queue := w.waiters_.queue ++ [w.current],
      sleepies := w.waiters_.sleepies + 1,
      locked := false },
    lockOwns := false,
    trace := w.trace ++ parkOps w.current }

/-- The world in which `Sleep` returns when the task was suspended in `w`. -/
def World.awake (sched : Scheduler σ) (w : World σ) : World σ :=
  let s := sched w
  let wl : WaitList :=
    WaitList.unlink { w.waiters_ with queue := s.queue, sleepies := s.queue.length } w.current
  { w with
    waiters_ := { wl with locked := false },
    lockOwns := true,
    cancelRequested := w.cancelRequested || s.cancel,
    now := w.now + s.elapsed,
    shared := s.shared,
    trace := w.trace ++ wakeOps w.current }

/-- The world after the destructor of the strategy. -/
def World.left (w : World σ) : World σ :=
  { w with
    waiters_ := { w.waiters_ with waitersScope := w.waiters_.waitersScope - 1 },
    trace := w.trace ++ [Op.waitersScopeLeave] }

/-- The world in which a non-predicate wait that parks in `w` returns. -/
def World.waited (sched : Scheduler σ) (w : World σ) : World σ :=
  (w.entered.asleep.awake sched).left

/-- The world after the part of the loop body that follows the wait, when the
wait returned `st` in `w`. -/
def World.afterBody (p : σ → Bool) (st : CvStatus) (w : World σ) : World σ :=
  if !p w.shared && st == CvStatus.kNoTimeout then
    { w with
      spuriousWakeups := w.spuriousWakeups + 1,
      trace := w.trace ++ [Op.status st, Op.predicate (p w.shared), Op.accountSpuriousWakeup] }
  else
    { w with trace := w.trace ++ [Op.status st, Op.predicate (p w.shared)] }

/-- The loop is left at once: the predicate holds or the last wait did not
return `kNoTimeout`. -/
def loopDone (pr : Bool) (st : CvStatus) : Prop := pr = true ∨ st ≠ CvStatus.kNoTimeout

/-- The trace entries the loop body writes after the wait returned `st` and
the predicate evaluated to `pr`. -/
def bodyOps (st : CvStatus) (pr : Bool) : List Op :=
  Op.status st :: Op.predicate pr ::
    (if !pr && st == CvStatus.kNoTimeout then [Op.accountSpuriousWakeup] else [])

/-- The shape of the trace written by the loop entered with `pr` and `st` and
left with result `b`. -/
inductive LoopRun : Bool → CvStatus → List Op → Bool → Prop
  | done (pr : Bool) (st : CvStatus) (h : loopDone pr st) : LoopRun pr st [] pr
  | step (pr : Bool) (st : CvStatus) (q rest : List Op) (st1 : CvStatus) (pr1 b : Bool)
      (h : ¬ loopDone pr st) (hq : ∀ o ∈ q, o.ofLoop = false)
      (hr : q.count Op.isReached = 1) (ht : LoopRun pr1 st1 rest b) :
      LoopRun pr st (q ++ bodyOps st1 pr1 ++ rest) b

/-! ## Examples -/

/-- A world for examples: task 7 runs, holds the user lock, nobody sleeps. -/
def exampleWorld : World Bool :=
  { waiters_ := ⟨[], 0, false, 0⟩, lockOwns := true, current := 7, cancelRequested := false,
    spuriousWakeups := 0, signalled := [], now := 10, shared := false, trace := [] }

/-- A scheduler for examples: the task is resumed with wake source `src`,
unlinked from the queue, one time unit later, with the shared flag equal to
`flag`. -/
def exampleScheduler (src : WakeupSource) (flag : Bool) : Scheduler Bool :=
  fun w => ⟨src, w.waiters_.queue.erase w.current, false, 1, flag⟩

/-- A scheduler for examples: every wake-up comes from the wait list; the
flag is set once the task has accounted a spurious wake-up. -/
def spuriousScheduler : Scheduler Bool :=
  fun w => ⟨WakeupSource.kWaitList, w.waiters_.queue.erase w.current, false, 1,
    decide (0 < w.spuriousWakeups)⟩

/-! ## Several tasks on one condition variable

The functions above follow one task.  For the interplay of waiting tasks and
a notifier the same code is laid out as a transition system: every task has a
program counter that names the next call it makes, one step of a task is one
such call, and a schedule picks the task that moves next.  A call that has to
wait (a mutex held by another task, a suspended task that nobody woke) is not
enabled. -/

namespace Interleaving

/-- A task of the system: the notifier, or the waiting task number `i`. -/
inductive Task where
  | notifier
  | waiter (i : Nat)
  deriving DecidableEq, Repr

/-- Where a waiting task stands in
`std::unique_lock lock(mutex); cv.Wait(lock, pred); lock.unlock()`,
named by the next call.  `parked` says whether the task has been through
`Sleep` already. -/
inductive WaiterPc where
  /-- next: `std::unique_lock lock(mutex)`, then the call of `Wait(lock, pred)` -/
  | start
  /-- next: `predicate()` in the predicate overload -/
  | evalPredicate (parked : Bool)
  /-- next: `WaitUntil(lock, {})` up to the constructor of `CvWaitStrategy`:
  `waiters_lock_(waiters_)` -/
  | construct
  /-- next: `Sleep`, `AfterAsleep`: `waiters_.Append(waiters_lock_, &current_)` -/
  | append
  /-- next: `AfterAsleep`: `waiters_lock_.unlock()` -/
  | unlockWaiters
  /-- next: `AfterAsleep`: `mutex_lock_.unlock()` -/
  | unlockMutex
  /-- suspended in `Sleep` until the wait list makes the task runnable -/
  | suspended
  /-- next: `BeforeAwake`: `WaitList::Lock guard_waiters{waiters_}` -/
  | lockWaiters
  /-- next: `BeforeAwake`: `waiters_.Remove(guard_waiters, &current_)` -/
  | remove
  /-- next: `BeforeAwake`: end of the scope of `guard_waiters` -/
  | unlockGuard
  /-- next: `BeforeAwake`: `mutex_lock_.lock()`; then `Sleep` returns `kWaitList` and
  `WaitUntil` returns `kNoTimeout` -/
  | lockMutex
  /-- after `Wait(lock, pred)` has returned `result`; next: `lock.unlock()` -/
  | returned (result : Bool) (parked : Bool)
  /-- the task is through -/
  | finished (result : Bool) (parked : Bool)
  deriving DecidableEq, Repr

/-- Where the notifier stands in
`{ std::lock_guard lock(mutex); flag = true; } cv.NotifyOne();`. -/
inductive NotifierPc where
  /-- next: `std::lock_guard lock(mutex)` -/
  | start
  /-- next: `flag = true` -/
  | setFlag
  /-- end of the scope of the lock guard -/
  | unlockMutex
  /-- next: `NotifyOne`: `waiters_.GetCountOfSleepies()` -/
  | getCountOfSleepies
  /-- next: `NotifyOne`: `WaitList::Lock lock(waiters_)` -/
  | lockWaiters
  /-- next: `NotifyOne`: `waiters_.WakeupOne(lock)` -/
  | wakeupOne
  /-- next: `NotifyOne`: end of the scope of `lock` -/
  | unlockWaiters
  /-- after `NotifyOne` has returned -/
  | done
  deriving DecidableEq, Repr

/-- The shared state and the program counters.  `mutexOwner` is the holder of
the user mutex, `waitersOwner` the holder of the internal mutex of the wait
list; `queue` and `sleepies` are the wait list; `signalled` holds the tasks
that `WakeupOne` made runnable and that have not resumed yet; `early` lists
the waiting tasks that called `Wait` before `NotifyOne` returned. -/
structure State where
  flag : Bool
  mutexOwner : Option Task
  waitersOwner : Option Task
  queue : List Nat
  sleepies : Nat
  signalled : List Nat
  waiters : List WaiterPc
  notifier : NotifierPc
  early : List Nat
  deriving DecidableEq, Repr

/-- The initial state of `n` waiting tasks and one notifier: the flag is
unset, both mutexes are free, nobody sleeps. -/
def init (n : Nat) : State :=
  { flag := false, mutexOwner := none, waitersOwner := none, queue := [], sleepies := 0,
    signalled := [], waiters := List.replicate n WaiterPc.start, notifier := NotifierPc.start,
    early := [] }

/-- Modelled from the spec: a blocking acquisition of a mutex succeeds only
while nobody holds it. -/
def free (owner : Option Task) : Bool := owner.isNone

/-- Modelled from the spec: `WaitList::Append`, the task is queued at the tail
and counted. -/
def State.Append (s : State) (i : Nat) : State :=
  { s with queue := s.queue ++ [i], sleepies := s.sleepies + 1 }

/-- Modelled from the spec: `WaitList::Remove`, idempotent. -/
def State.Remove (s : State) (i : Nat) : State :=
  if i ∈ s.queue then { s with queue := s.queue.erase i, sleepies := s.sleepies - 1 } else s

/-- Modelled from the spec: `WaitList::WakeupOne`, the head of the queue is
unlinked and made runnable with `WakeupSource::kWaitList`; nothing on an
empty queue. -/
def State.WakeupOne (s : State) : State :=
  match s.queue with
  | [] => s
  | t :: rest =>
    { s with queue := rest, sleepies := s.sleepies - 1, signalled := s.signalled ++ [t] }

/-- The waiting task `i` moves on to `next`. -/
def State.goto (s : State) (i : Nat) (next : WaiterPc) : State :=
  { s with waiters := s.waiters.set i next }

/-- One step of the waiting task `i` standing at `pc`; `none` when the task
cannot move.  No deadline is set and no cancellation is requested in this
system, so that a suspended task resumes only when the wait list has made it
runnable. -/
def stepWaiter (i : Nat) (pc : WaiterPc) (s : State) : Option State :=
  match pc with
  | WaiterPc.start =>
    if free s.mutexOwner then
      some ({ s with
        mutexOwner := some (Task.waiter i),
        early := if s.notifier = NotifierPc.done then s.early else s.early ++ [i] }.goto i
          (WaiterPc.evalPredicate false))
    else none
  | WaiterPc.evalPredicate parked =>
    if s.flag then some (s.goto i (WaiterPc.returned true parked))
    else some (s.goto i WaiterPc.construct)
  | WaiterPc.construct =>
    if free s.waitersOwner then
      some ({ s with waitersOwner := some (Task.waiter i) }.goto i WaiterPc.append)
    else none
  | WaiterPc.append => some ((s.Append i).goto i WaiterPc.unlockWaiters)
  | WaiterPc.unlockWaiters => some ({ s with waitersOwner := none }.goto i WaiterPc.unlockMutex)
  | WaiterPc.unlockMutex => some ({ s with mutexOwner := none }.goto i WaiterPc.suspended)
  | WaiterPc.suspended =>
    if i ∈ s.signalled then
      some ({ s with signalled := s.signalled.erase i }.goto i WaiterPc.lockWaiters)
    else none
  | WaiterPc.lockWaiters =>
    if free s.waitersOwner then
      some ({ s with waitersOwner := some (Task.waiter i) }.goto i WaiterPc.remove)
    else none
  | WaiterPc.remove => some ((s.Remove i).goto i WaiterPc.unlockGuard)
  | WaiterPc.unlockGuard => some ({ s with waitersOwner := none }.goto i WaiterPc.lockMutex)
  | WaiterPc.lockMutex =>
    if free s.mutexOwner then
      some ({ s with mutexOwner := some (Task.waiter i) }.goto i (WaiterPc.evalPredicate true))
    else none
  | WaiterPc.returned result parked =>
    some ({ s with mutexOwner := none }.goto i (WaiterPc.finished result parked))
  | WaiterPc.finished _ _ => none

/-- One step of the notifier; `none` when it cannot move. -/
def stepNotifier (s : State) : Option State :=
  match s.notifier with
  | NotifierPc.start =>
    if free s.mutexOwner then
      some { s with mutexOwner := some Task.notifier, notifier := NotifierPc.setFlag }
    else none
  | NotifierPc.setFlag => some { s with flag := true, notifier := NotifierPc.unlockMutex }
  | NotifierPc.unlockMutex =>
    some { s with mutexOwner := none, notifier := NotifierPc.getCountOfSleepies }
  | NotifierPc.getCountOfSleepies =>
    if s.sleepies != 0 then some { s with notifier := NotifierPc.lockWaiters }
    else some { s with notifier := NotifierPc.done }
  | NotifierPc.lockWaiters =>
    if free s.waitersOwner then
      some { s with waitersOwner := some Task.notifier, notifier := NotifierPc.wakeupOne }
    else none
  | NotifierPc.wakeupOne => some { s.WakeupOne with notifier := NotifierPc.unlockWaiters }
  | NotifierPc.unlockWaiters => some { s with waitersOwner := none, notifier := NotifierPc.done }
  | NotifierPc.done => none

/-- One step of task `t`; `none` when the task does not exist or cannot
move. -/
def step (t : Task) (s : State) : Option State :=
  match t with
  | Task.notifier => stepNotifier s
  | Task.waiter i =>
    match s.waiters[i]? with
    | some pc => stepWaiter i pc s
    | none => none

/-- The state reached under a schedule; a task that cannot move when it is
picked is passed over. -/
def run : List Task → State → State
  | [], s => s
  | t :: rest, s =>
    match step t s with
    | some s1 => run rest s1
    | none => run rest s

/-- The result a waiting task at `pc` has returned, `true` when it has not
returned yet. -/
def WaiterPc.result : WaiterPc → Bool
  | WaiterPc.returned r _ => r
  | WaiterPc.finished r _ => r
  | _ => true

/-- How a step of a waiting task changes the owner of a mutex: not at all, by
acquiring it when it is free, or by releasing it. -/
def OwnerStep (i : Nat) (before after : Option Task) : Prop :=
  after = before ∨ (before = none ∧ after = some (Task.waiter i))
    ∨ (before = some (Task.waiter i) ∧ after = none)

end Interleaving

/-! ## Lemmas on the code of one task -/

theorem Exec.bind_run {α β : Type} (x : Exec σ α) (f : α → Exec σ β) (w : World σ) :
    (x >>= f) w = match x w with
      | .ok (a, w1) => f a w1
      | .error e => .error e := rfl

theorem Exec.pure_run {α : Type} (a : α) (w : World σ) :
    (pure a : Exec σ α) w = .ok (a, w) := rfl

theorem Exec.note_run (o : Op) (w : World σ) :
    Exec.note o w = .ok ((), { w with trace := w.trace ++ [o] }) := rfl

theorem UASSERT_true_run (w : World σ) : UASSERT true w = .ok ((), w) := rfl

theorem UASSERT_false_run (w : World σ) : UASSERT false w = .error Fault.abort := rfl

theorem IsReached_run (d : Deadline) (w : World σ) :
    d.IsReached w = .ok (d.reached w.now, { w with trace := w.trace ++ [Op.isReached] }) := rfl

theorem GetCurrentTaskContext_run (w : World σ) :
    GetCurrentTaskContext w
      = .ok (w.current, { w with trace := w.trace ++ [Op.getCurrentTaskContext] }) := rfl

theorem ShouldCancel_run (c : TaskContext) (w : World σ) :
    ShouldCancel c w
      = .ok (w.cancelRequested, { w with trace := w.trace ++ [Op.shouldCancel] }) := rfl

theorem WaitList.unlink_queue (wl : WaitList) (t : TaskContext) :
    (wl.unlink t).queue = wl.queue.erase t := by
  unfold WaitList.unlink
  split
  · rfl
  · rename_i h
    exact (List.erase_of_not_mem h).symm

theorem WaitList.unlink_sleepies (wl : WaitList) (t : TaskContext) :
    (wl.unlink t).sleepies = if t ∈ wl.queue then wl.sleepies - 1 else wl.sleepies := by
  unfold WaitList.unlink
  split <;> rfl

theorem WaitList.unlink_waitersScope (wl : WaitList) (t : TaskContext) :
    (wl.unlink t).waitersScope = wl.waitersScope := by
  unfold WaitList.unlink
  split <;> rfl

theorem AfterAsleep_run (self : CvWaitStrategy) (w : World σ)
    (ho : self.waiters_lock_.owns = true) (hc : self.current_ = w.current)
    (hl : w.lockOwns = true) :
    self.AfterAsleep w = .ok ({ self with waiters_lock_ := ⟨false⟩ },
      { w with
        waiters_ := { w.waiters_ with
          queue := w.waiters_.queue ++ [w.current],
          sleepies := w.waiters_.sleepies + 1,
          locked := false },
        lockOwns := false,
        trace := w.trace ++ [Op.getCurrentTaskContext, Op.append w.current,
          Op.waitersUnlock, Op.mutexUnlock] }) := by
  simp [CvWaitStrategy.AfterAsleep, Exec.bind_run, Exec.pure_run, Exec.note_run,
    GetCurrentTaskContext_run, hc, UASSERT_true_run, WaitList.Append, ho,
    WaitList.Lock.unlock, mutex_lock_unlock, hl]

theorem BeforeAwake_run (self : CvWaitStrategy) (w : World σ)
    (hc : self.current_ = w.current) (hm : w.waiters_.locked = false)
    (hl : w.lockOwns = false) :
    self.BeforeAwake w = .ok ((),
      { w with
        waiters_ := { (w.waiters_.unlink w.current) with locked := false },
        lockOwns := true,
        trace := w.trace ++ [Op.getCurrentTaskContext, Op.waitersLock, Op.remove w.current,
          Op.waitersUnlock, Op.mutexLock] }) := by
  simp [CvWaitStrategy.BeforeAwake, Exec.bind_run, Exec.pure_run, Exec.note_run,
    GetCurrentTaskContext_run, hc, UASSERT_true_run, WaitList.Remove, 
    WaitList.Lock.ctor, WaitList.Lock.dtor, WaitList.Lock.unlock, mutex_lock_lock, hl, hm,
    WaitList.unlink_queue, WaitList.unlink_sleepies, WaitList.unlink_waitersScope]
  

theorem Sleep_run (sched : Scheduler σ) (self : CvWaitStrategy) (w : World σ)
    (ho : self.waiters_lock_.owns = true) (hc : self.current_ = w.current)
    (hl : w.lockOwns = true) :
    Sleep sched self w = .ok (((sched w.asleep).source, { self with waiters_lock_ := ⟨false⟩ }),
      w.asleep.awake sched) := by
  have h1 := AfterAsleep_run self { w with trace := w.trace ++ [Op.sleep] } ho hc hl
  simp only [Sleep, Exec.bind_run, Exec.note_run, h1, suspended]
  rw [BeforeAwake_run _ _ (by exact hc) rfl rfl]
  simp [World.asleep, World.awake, parkOps, wakeOps, Exec.pure_run]

theorem WaitUntil_reached (sched : Scheduler σ) (d : Deadline) (w : World σ)
    (hd : d.reached w.now = true) :
    WaitUntil sched d w = .ok (CvStatus.kTimeout, { w with trace := w.trace ++ [Op.isReached] }) := by
  simp [WaitUntil, Exec.bind_run, IsReached_run, hd, Exec.pure_run]

theorem WaitUntil_cancelled (sched : Scheduler σ) (d : Deadline) (w : World σ)
    (hd : d.reached w.now = false) (hc : w.cancelRequested = true) :
    WaitUntil sched d w = .ok (CvStatus.kCancelled,
      { w with trace := w.trace ++ [Op.isReached, Op.getCurrentTaskContext, Op.shouldCancel] }) := by
  simp [WaitUntil, Exec.bind_run, IsReached_run, hd, Exec.pure_run, GetCurrentTaskContext_run,
    ShouldCancel_run, hc]

theorem WaitUntil_deadlock (sched : Scheduler σ) (d : Deadline) (w : World σ)
    (hd : d.reached w.now = false) (hc : w.cancelRequested = false)
    (hm : w.waiters_.locked = true) :
    WaitUntil sched d w = .error Fault.deadlock := by
  simp [WaitUntil, Exec.bind_run, IsReached_run, hd, Exec.pure_run, GetCurrentTaskContext_run,
    ShouldCancel_run, hc, CvWaitStrategy.ctor, WaitList.WaitersScopeCounter.ctor,
    WaitList.Lock.ctor, Exec.note_run, hm]

theorem WaitUntil_not_owner (sched : Scheduler σ) (d : Deadline) (w : World σ)
    (hd : d.reached w.now = false) (hc : w.cancelRequested = false)
    (hm : w.waiters_.locked = false) (hl : w.lockOwns = false) :
    WaitUntil sched d w = .error Fault.system_error := by
  simp [WaitUntil, Exec.bind_run, IsReached_run, hd, Exec.pure_run, GetCurrentTaskContext_run,
    ShouldCancel_run, hc, CvWaitStrategy.ctor, WaitList.WaitersScopeCounter.ctor,
    WaitList.Lock.ctor, Exec.note_run, hm, Sleep, CvWaitStrategy.AfterAsleep, UASSERT_true_run,
    WaitList.Append, WaitList.Lock.unlock, mutex_lock_unlock, hl]

theorem WaitUntil_parked (sched : Scheduler σ) (d : Deadline) (w : World σ)
    (hd : d.reached w.now = false) (hc : w.cancelRequested = false)
    (hm : w.waiters_.locked = false) (hl : w.lockOwns = true) :
    WaitUntil sched d w =
      match (sched w.entered.asleep).source with
      | WakeupSource.kCancelRequest =>
        .ok (CvStatus.kCancelled, (w.entered.asleep.awake sched).left)
      | WakeupSource.kDeadlineTimer =>
        .ok (CvStatus.kTimeout, (w.entered.asleep.awake sched).left)
      | WakeupSource.kWaitList =>
        .ok (CvStatus.kNoTimeout, (w.entered.asleep.awake sched).left)
      | WakeupSource.kNone => .error Fault.abort
      | WakeupSource.kBootstrap => .error Fault.abort := by
  simp [WaitUntil, Exec.bind_run, IsReached_run, hd, Exec.pure_run, GetCurrentTaskContext_run,
    ShouldCancel_run, hc, CvWaitStrategy.ctor, WaitList.WaitersScopeCounter.ctor,
    WaitList.Lock.ctor, Exec.note_run, hm, Sleep_run, hl, World.entered, enterOps]
  generalize (sched (World.asleep _)).source = src
  cases src <;>
    simp [Exec.bind_run, Exec.pure_run, UASSERT_false_run, CvWaitStrategy.dtor, WaitList.Lock.dtor,
      WaitList.WaitersScopeCounter.dtor, Exec.note_run, World.left]

theorem WaitUntil_cases (sched : Scheduler σ) (d : Deadline) (w w1 : World σ) (st : CvStatus)
    (h : WaitUntil sched d w = .ok (st, w1)) :
    (d.reached w.now = true ∧ st = CvStatus.kTimeout
        ∧ w1 = { w with trace := w.trace ++ [Op.isReached] })
    ∨ (d.reached w.now = false ∧ w.cancelRequested = true ∧ st = CvStatus.kCancelled
        ∧ w1 = { w with trace := w.trace
            ++ [Op.isReached, Op.getCurrentTaskContext, Op.shouldCancel] })
    ∨ (d.reached w.now = false ∧ w.cancelRequested = false ∧ w.waiters_.locked = false
        ∧ w.lockOwns = true ∧ w1 = (w.entered.asleep.awake sched).left
        ∧ ((sched w.entered.asleep).source = WakeupSource.kWaitList ∧ st = CvStatus.kNoTimeout
          ∨ (sched w.entered.asleep).source = WakeupSource.kDeadlineTimer ∧ st = CvStatus.kTimeout
          ∨ (sched w.entered.asleep).source = WakeupSource.kCancelRequest
              ∧ st = CvStatus.kCancelled)) := by
  cases hd : d.reached w.now with
  | true =>
    rw [WaitUntil_reached sched d w hd] at h
    simp at h
    simp [h.1.symm, h.2.symm]
  | false =>
    cases hc : w.cancelRequested with
    | true =>
      rw [WaitUntil_cancelled sched d w hd hc] at h
      simp at h
      simp [h.1.symm, h.2.symm, hc]
    | false =>
      cases hm : w.waiters_.locked with
      | true =>
        rw [WaitUntil_deadlock sched d w hd hc hm] at h
        simp at h
      | false =>
        cases hl : w.lockOwns with
        | false =>
          rw [WaitUntil_not_owner sched d w hd hc hm hl] at h
          simp at h
        | true =>
          rw [WaitUntil_parked sched d w hd hc hm hl] at h
          cases hs : (sched w.entered.asleep).source <;> rw [hs] at h <;> simp at h <;>
            simp [h.1.symm, h.2.symm, hc, hm, hl]

theorem left_awake_trace (sched : Scheduler σ) (w : World σ) :
    ((w.entered.asleep.awake sched).left).trace = w.trace ++ waitOps w.current := by
  simp [World.left, World.awake, World.asleep, World.entered, waitOps]

theorem waitOps_quiet (c : TaskContext) : ∀ o ∈ waitOps c, o.ofLoop = false := by
  intro o ho
  simp [waitOps, enterOps, parkOps, wakeOps] at ho
  rcases ho with h | h | h | h | h | h | h | h | h | h | h | h | h | h | h | h <;> subst h <;> rfl

theorem WaitUntil_frame (sched : Scheduler σ) (d : Deadline) (w w1 : World σ) (st : CvStatus)
    (h : WaitUntil sched d w = .ok (st, w1)) :
    ∃ ops, w1.trace = w.trace ++ ops ∧ (∀ o ∈ ops, o.ofLoop = false)
      ∧ ops.count Op.isReached = 1
      ∧ w1.spuriousWakeups = w.spuriousWakeups ∧ (w.lockOwns = true → w1.lockOwns = true) := by
  rcases WaitUntil_cases sched d w w1 st h with ⟨_, _, h1⟩ | ⟨_, _, _, h1⟩ | ⟨_, _, _, _, h1, _⟩
  · subst h1
    refine ⟨[Op.isReached], rfl, ?_, rfl, rfl, fun hl => hl⟩
    intro o ho
    simp at ho
    subst ho
    rfl
  · subst h1
    refine ⟨[Op.isReached, Op.getCurrentTaskContext, Op.shouldCancel], rfl, ?_, rfl, rfl, fun hl => hl⟩
    intro o ho
    simp at ho
    rcases ho with h | h | h <;> subst h <;> rfl
  · subst h1
    refine ⟨waitOps w.current, left_awake_trace sched w, waitOps_quiet _, ?_, rfl, fun _ => rfl⟩
    simp [waitOps, enterOps, parkOps, wakeOps]

theorem evalPredicate_run (p : σ → Bool) (w : World σ) :
    evalPredicate p w
      = .ok (p w.shared, { w with trace := w.trace ++ [Op.predicate (p w.shared)] }) := rfl

theorem AccountSpuriousWakeup_run (w : World σ) :
    AccountSpuriousWakeup w = .ok ((), { w with
      spuriousWakeups := w.spuriousWakeups + 1,
      trace := w.trace ++ [Op.accountSpuriousWakeup] }) := rfl

theorem WaitUntilBody_run (sched : Scheduler σ) (d : Deadline) (p : σ → Bool) (w w1 : World σ)
    (st : CvStatus) (h : WaitUntil sched d w = .ok (st, w1)) :
    WaitUntilBody sched d p w = .ok ((p w1.shared, st), w1.afterBody p st) := by
  simp only [WaitUntilBody, Exec.bind_run, h, Exec.note_run, evalPredicate_run]
  by_cases hc : (!p w1.shared && st == CvStatus.kNoTimeout) = true
  · simp [World.afterBody, hc, AccountSpuriousWakeup_run, Exec.bind_run, Exec.pure_run]
  · simp [World.afterBody, hc, Exec.bind_run, Exec.pure_run]

theorem WaitUntilBody_error (sched : Scheduler σ) (d : Deadline) (p : σ → Bool) (w : World σ)
    (e : Fault) (h : WaitUntil sched d w = .error e) :
    WaitUntilBody sched d p w = .error e := by
  simp only [WaitUntilBody, Exec.bind_run, h]

theorem WaitUntilBody_inv (sched : Scheduler σ) (d : Deadline) (p : σ → Bool) (w w2 : World σ)
    (r : Bool × CvStatus) (h : WaitUntilBody sched d p w = .ok (r, w2)) :
    ∃ w1, WaitUntil sched d w = .ok (r.2, w1) ∧ r.1 = p w1.shared ∧ w2 = w1.afterBody p r.2 := by
  cases hw : WaitUntil sched d w with
  | error e =>
    rw [WaitUntilBody_error sched d p w e hw] at h
    simp at h
  | ok x =>
    obtain ⟨st, w1⟩ := x
    rw [WaitUntilBody_run sched d p w w1 st hw] at h
    simp at h
    refine ⟨w1, ?_, ?_, ?_⟩
    · rw [← h.1]
    · rw [← h.1]
    · rw [← h.1, ← h.2]

theorem loop_cond_false {pr : Bool} {st : CvStatus} (h : loopDone pr st) :
    (!pr && st == CvStatus.kNoTimeout) = false := by
  rcases h with h | h
  · simp [h]
  · cases st <;> simp at h ⊢

theorem loop_cond_true {pr : Bool} {st : CvStatus} (h : ¬ loopDone pr st) :
    (!pr && st == CvStatus.kNoTimeout) = true := by
  unfold loopDone at h
  cases pr <;> cases st <;> simp at h ⊢

theorem WaitUntilLoop_done (sched : Scheduler σ) (d : Deadline) (p : σ → Bool) (fuel : Nat)
    (pr : Bool) (st : CvStatus) (w : World σ) (h : loopDone pr st) :
    WaitUntilLoop sched d p fuel pr st w = .ok (pr, w) := by
  cases fuel <;> simp [WaitUntilLoop, loop_cond_false h, Exec.pure_run]

theorem WaitUntilLoop_step (sched : Scheduler σ) (d : Deadline) (p : σ → Bool) (fuel : Nat)
    (pr : Bool) (st : CvStatus) (w w' : World σ) (b : Bool) (hnd : ¬ loopDone pr st)
    (h : WaitUntilLoop sched d p fuel pr st w = .ok (b, w')) :
    ∃ n st1 w1, fuel = n + 1 ∧ WaitUntil sched d w = .ok (st1, w1)
      ∧ WaitUntilLoop sched d p n (p w1.shared) st1 (w1.afterBody p st1) = .ok (b, w') := by
  cases fuel with
  | zero => simp [WaitUntilLoop, loop_cond_true hnd, Exec.fail] at h
  | succ n =>
    simp only [WaitUntilLoop, loop_cond_true hnd, Exec.bind_run, if_true] at h
    cases hb : WaitUntilBody sched d p w with
    | error e => simp [hb] at h
    | ok x =>
      obtain ⟨r, w2⟩ := x
      obtain ⟨w1, h1, h2, h3⟩ := WaitUntilBody_inv sched d p w w2 r hb
      simp only [hb] at h
      refine ⟨n, r.2, w1, rfl, h1, ?_⟩
      rw [← h2, ← h3]
      exact h

theorem iterations_cons_of_not_status (o : Op) (l : List Op) (h : ∀ s, o ≠ Op.status s) :
    iterations (o :: l) = iterations l := by
  cases o <;> first | rfl | exact absurd rfl (h _)

theorem iterations_status_predicate (s : CvStatus) (r : Bool) (l : List Op) :
    iterations (Op.status s :: Op.predicate r :: l) = (s, r) :: iterations l := rfl

theorem not_status_of_quiet {o : Op} (h : o.ofLoop = false) : ∀ s, o ≠ Op.status s := by
  intro s hs
  subst hs
  simp [Op.ofLoop] at h

theorem iterations_quiet_append (q l : List Op) (hq : ∀ o ∈ q, o.ofLoop = false) :
    iterations (q ++ l) = iterations l := by
  induction q with
  | nil => rfl
  | cons o q ih =>
    have ho : o.ofLoop = false := hq o (List.mem_cons_self _ _)
    rw [List.cons_append, iterations_cons_of_not_status o _ (not_status_of_quiet ho)]
    exact ih (fun x hx => hq x (List.mem_cons_of_mem _ hx))

theorem lastPredicate_append (a b : List Op) :
    lastPredicate (a ++ b) = (lastPredicate b).orElse (fun _ => lastPredicate a) := by
  induction a with
  | nil => cases h : lastPredicate b <;> simp [lastPredicate, h]
  | cons o a ih =>
    rw [List.cons_append]
    simp only [lastPredicate]
    rw [ih]
    cases hb : lastPredicate b <;> simp [hb]

theorem lastPredicate_quiet (q : List Op) (hq : ∀ o ∈ q, o.ofLoop = false) :
    lastPredicate q = none := by
  induction q with
  | nil => rfl
  | cons o q ih =>
    have ho : o.ofLoop = false := hq o (List.mem_cons_self _ _)
    simp only [lastPredicate, ih (fun x hx => hq x (List.mem_cons_of_mem _ hx))]
    cases o <;> simp [Op.ofLoop] at ho ⊢

theorem LoopRun_nil_of_done {pr : Bool} {st : CvStatus} {ops : List Op} {b : Bool}
    (h : LoopRun pr st ops b) (hd : loopDone pr st) : ops = [] ∧ b = pr := by
  cases h with
  | done _ _ _ => exact ⟨rfl, rfl⟩
  | step _ _ _ _ _ _ _ hn _ _ _ => exact absurd hd hn

theorem iterations_step (q rest : List Op) (st1 : CvStatus) (pr1 : Bool)
    (hq : ∀ o ∈ q, o.ofLoop = false) :
    iterations (q ++ bodyOps st1 pr1 ++ rest) = (st1, pr1) :: iterations rest := by
  rw [List.append_assoc, iterations_quiet_append _ _ hq]
  unfold bodyOps
  by_cases hc : (!pr1 && st1 == CvStatus.kNoTimeout) = true
  · simp only [hc, if_true, List.cons_append, List.nil_append, iterations_status_predicate]
    rw [iterations_cons_of_not_status _ _ (by intro s hs; cases hs)]
  · simp only [hc, List.cons_append, List.nil_append, iterations_status_predicate]
    simp

theorem LoopRun_lastPredicate {pr : Bool} {st : CvStatus} {ops : List Op} {b : Bool}
    (h : LoopRun pr st ops b) : (lastPredicate ops).getD pr = b := by
  induction h with
  | done _ _ _ => rfl
  | step pr st q rest st1 pr1 b hn hq hr ht ih =>
    rw [lastPredicate_append, lastPredicate_append, lastPredicate_quiet q hq]
    have hb : lastPredicate (bodyOps st1 pr1) = some pr1 := by
      unfold bodyOps
      by_cases hc : (!pr1 && st1 == CvStatus.kNoTimeout) = true <;> simp [hc, lastPredicate]
    rw [hb]
    cases hl : lastPredicate rest with
    | none => simpa [hl] using ih
    | some r => simpa [hl] using ih

theorem LoopRun_iterations_nil {pr : Bool} {st : CvStatus} {ops : List Op} {b : Bool}
    (h : LoopRun pr st ops b) (hi : iterations ops = []) : ops = [] ∧ b = pr := by
  cases h with
  | done _ _ _ => exact ⟨rfl, rfl⟩
  | step _ _ q rest st1 pr1 _ hn hq _ _ =>
    rw [iterations_step q rest st1 pr1 hq] at hi
    simp at hi

theorem LoopRun_iterations_last {pr : Bool} {st : CvStatus} {ops : List Op} {b : Bool}
    (h : LoopRun pr st ops b) :
    ∀ init last, iterations ops = init ++ [last] →
      (∀ x ∈ init, x = (CvStatus.kNoTimeout, false)) ∧ b = last.2 := by
  induction h with
  | done _ _ _ =>
    intro init last hi
    simp [iterations] at hi
  | step pr st q rest st1 pr1 b hn hq hr ht ih =>
    intro init last hi
    rw [iterations_step q rest st1 pr1 hq] at hi
    cases init with
    | nil =>
      simp at hi
      obtain ⟨h1, h2⟩ := hi
      obtain ⟨_, hb⟩ := LoopRun_iterations_nil ht h2
      subst h1
      exact ⟨by simp, hb⟩
    | cons x init =>
      simp at hi
      obtain ⟨h1, h2⟩ := hi
      obtain ⟨ha, hb⟩ := ih init last h2
      refine ⟨?_, hb⟩
      intro y hy
      rcases List.mem_cons.mp hy with hy | hy
      · subst hy
        subst h1
        by_cases hd : loopDone pr1 st1
        · have := (LoopRun_nil_of_done ht hd).1
          subst this
          simp [iterations] at h2
        · unfold loopDone at hd
          cases pr1 <;> cases st1 <;> simp at hd ⊢
      · exact ha y hy

theorem count_quiet (q : List Op) (hq : ∀ o ∈ q, o.ofLoop = false) :
    q.count Op.accountSpuriousWakeup = 0 := by
  rw [List.count_eq_zero]
  intro hm
  have := hq _ hm
  simp [Op.ofLoop] at this

theorem LoopRun_counts {pr : Bool} {st : CvStatus} {ops : List Op} {b : Bool}
    (h : LoopRun pr st ops b) :
    ops.count Op.isReached = (iterations ops).length
      ∧ ops.count Op.accountSpuriousWakeup = (iterations ops).countP isSpurious := by
  induction h with
  | done _ _ _ => simp [iterations]
  | step pr st q rest st1 pr1 b hn hq hr ht ih =>
    rw [iterations_step q rest st1 pr1 hq]
    simp only [List.count_append, hr, count_quiet q hq, ih.1, ih.2, List.length_cons,
      List.countP_cons]
    unfold bodyOps isSpurious
    by_cases hc : (!pr1 && st1 == CvStatus.kNoTimeout) = true
    · have hc2 : (st1 == CvStatus.kNoTimeout && !pr1) = true := by rw [Bool.and_comm]; exact hc
      simp [hc, hc2]
      omega
    · have hc2 : ¬ (st1 == CvStatus.kNoTimeout && !pr1) = true := by rw [Bool.and_comm]; exact hc
      simp [hc, hc2]
      omega

theorem WaitUntilLoop_trace (sched : Scheduler σ) (d : Deadline) (p : σ → Bool) :
    ∀ (fuel : Nat) (pr : Bool) (st : CvStatus) (w w' : World σ) (b : Bool),
      WaitUntilLoop sched d p fuel pr st w = .ok (b, w') →
      ∃ ops, w'.trace = w.trace ++ ops ∧ LoopRun pr st ops b
        ∧ w'.spuriousWakeups = w.spuriousWakeups + ops.count Op.accountSpuriousWakeup
        ∧ (w.lockOwns = true → w'.lockOwns = true) := by
  intro fuel
  induction fuel with
  | zero =>
    intro pr st w w' b h
    by_cases hd : loopDone pr st
    · rw [WaitUntilLoop_done sched d p 0 pr st w hd] at h
      simp at h
      obtain ⟨h1, h2⟩ := h
      subst h1 h2
      exact ⟨[], by simp, LoopRun.done _ _ hd, by simp, fun hl => hl⟩
    · obtain ⟨n, _, _, hn, _⟩ := WaitUntilLoop_step sched d p 0 pr st w w' b hd h
      omega
  | succ n ih =>
    intro pr st w w' b h
    by_cases hd : loopDone pr st
    · rw [WaitUntilLoop_done sched d p (n + 1) pr st w hd] at h
      simp at h
      obtain ⟨h1, h2⟩ := h
      subst h1 h2
      exact ⟨[], by simp, LoopRun.done _ _ hd, by simp, fun hl => hl⟩
    · obtain ⟨m, st1, w1, hm, hw, hloop⟩ := WaitUntilLoop_step sched d p (n + 1) pr st w w' b hd h
      have hmn : m = n := by omega
      subst hmn
      obtain ⟨q, hq1, hq2, hq3, hq4, hq5⟩ := WaitUntil_frame sched d w w1 st1 hw
      obtain ⟨rest, hr1, hr2, hr3, hr4⟩ := ih (p w1.shared) st1 (w1.afterBody p st1) w' b hloop
      have hbt : (w1.afterBody p st1).trace = w1.trace ++ bodyOps st1 (p w1.shared) := by
        unfold World.afterBody bodyOps
        by_cases hc : (!p w1.shared && st1 == CvStatus.kNoTimeout) = true <;> simp [hc]
      have hbs : (w1.afterBody p st1).spuriousWakeups
          = w1.spuriousWakeups + (bodyOps st1 (p w1.shared)).count Op.accountSpuriousWakeup := by
        unfold World.afterBody bodyOps
        by_cases hc : (!p w1.shared && st1 == CvStatus.kNoTimeout) = true <;> simp [hc]
      have hbl : (w1.afterBody p st1).lockOwns = w1.lockOwns := by
        unfold World.afterBody
        by_cases hc : (!p w1.shared && st1 == CvStatus.kNoTimeout) = true <;> simp [hc]
      refine ⟨q ++ bodyOps st1 (p w1.shared) ++ rest, ?_, ?_, ?_, ?_⟩
      · rw [hr1, hbt, hq1]
        simp [List.append_assoc]
      · exact LoopRun.step pr st q rest st1 (p w1.shared) b hd hq2 hq3 hr2
      · rw [hr3, hbs, hq4]
        simp only [List.count_append, count_quiet q hq2]
        omega
      · intro hl
        exact hr4 (by rw [hbl]; exact hq5 hl)

theorem WaitUntilPred_trace (sched : Scheduler σ) (d : Deadline) (p : σ → Bool) (fuel : Nat)
    (w w' : World σ) (b : Bool) (h : WaitUntilPred sched fuel d p w = .ok (b, w')) :
    ∃ ops, w'.trace = w.trace ++ Op.predicate (p w.shared) :: ops
      ∧ LoopRun (p w.shared) CvStatus.kNoTimeout ops b
      ∧ w'.spuriousWakeups = w.spuriousWakeups + ops.count Op.accountSpuriousWakeup
      ∧ (w.lockOwns = true → w'.lockOwns = true) := by
  simp only [WaitUntilPred, Exec.bind_run, evalPredicate_run] at h
  obtain ⟨ops, h1, h2, h3, h4⟩ := WaitUntilLoop_trace sched d p fuel _ _ _ w' b h
  refine ⟨ops, ?_, h2, h3, h4⟩
  rw [h1]
  simp

theorem ctor_inv (d : Deadline) (c : TaskContext) (w w1 : World σ) (wm : CvWaitStrategy)
    (h : CvWaitStrategy.ctor d c w = .ok (wm, w1)) :
    w.waiters_.locked = false ∧ wm = ⟨d, ⟨true⟩, c⟩
      ∧ w1 = { w with
          waiters_ := { w.waiters_ with
            locked := true, waitersScope := w.waiters_.waitersScope + 1 },
          trace := w.trace ++ [Op.waitersScopeEnter, Op.waitersLock] } := by
  cases hm : w.waiters_.locked with
  | true =>
    simp [CvWaitStrategy.ctor, Exec.bind_run, WaitList.WaitersScopeCounter.ctor,
      WaitList.Lock.ctor, Exec.note_run, hm] at h
  | false =>
    simp [CvWaitStrategy.ctor, Exec.bind_run, WaitList.WaitersScopeCounter.ctor,
      WaitList.Lock.ctor, Exec.note_run, hm, Exec.pure_run] at h
    simp [h.1.symm, h.2.symm]

theorem Sleep_not_owner (sched : Scheduler σ) (self : CvWaitStrategy) (w : World σ)
    (hl : w.lockOwns = false) : ∃ e, Sleep sched self w = .error e := by
  by_cases hc : self.current_ = w.current <;> cases ho : self.waiters_lock_.owns <;>
    simp [Sleep, Exec.bind_run, Exec.note_run, CvWaitStrategy.AfterAsleep,
      GetCurrentTaskContext_run, UASSERT, Exec.ret, Exec.fail, hc, ho, WaitList.Append,
      WaitList.Lock.unlock, mutex_lock_unlock, hl]

theorem Sleep_inv (sched : Scheduler σ) (d : Deadline) (w w2 : World σ) (src : WakeupSource)
    (wm : CvWaitStrategy)
    (h : Sleep sched ⟨d, ⟨true⟩, w.current⟩ w = .ok ((src, wm), w2)) :
    w.lockOwns = true ∧ src = (sched w.asleep).source ∧ wm = ⟨d, ⟨false⟩, w.current⟩
      ∧ w2 = w.asleep.awake sched := by
  cases hl : w.lockOwns with
  | false =>
    obtain ⟨e, he⟩ := Sleep_not_owner sched ⟨d, ⟨true⟩, w.current⟩ w hl
    rw [he] at h
    simp at h
  | true =>
    rw [Sleep_run sched _ w rfl rfl hl] at h
    simp at h
    simp [h.1.1.symm, h.1.2.symm, h.2.symm]

theorem parks_inv (sched : Scheduler σ) (d : Deadline) (w w1 w2 : World σ)
    (wm wm' : CvWaitStrategy) (src : WakeupSource)
    (hctor : CvWaitStrategy.ctor d w.current w.checked = .ok (wm, w1))
    (hsleep : Sleep sched wm w1 = .ok ((src, wm'), w2)) :
    w.waiters_.locked = false ∧ w.lockOwns = true ∧ src = (sched w.entered.asleep).source
      ∧ w2 = w.entered.asleep.awake sched ∧ wm' = ⟨d, ⟨false⟩, w.current⟩ := by
  obtain ⟨h1, h2, h3⟩ := ctor_inv d w.current w.checked w1 wm hctor
  subst h2
  have he : w1 = w.entered := by
    rw [h3]
    simp [World.entered, World.checked, enterOps]
  subst he
  obtain ⟨h4, h5, h6, h7⟩ := Sleep_inv sched d w.entered w2 src wm' hsleep
  exact ⟨h1, h4, h5, h7, h6⟩

theorem dtor_unlocked_run (d : Deadline) (c : TaskContext) (w : World σ) :
    CvWaitStrategy.dtor ⟨d, ⟨false⟩, c⟩ w = .ok ((), w.left) := by
  simp [CvWaitStrategy.dtor, WaitList.Lock.dtor, Exec.bind_run, Exec.pure_run,
    WaitList.WaitersScopeCounter.dtor, Exec.note_run, World.left]

theorem WaitUntilLoop_iter (sched : Scheduler σ) (d : Deadline) (p : σ → Bool) (n : Nat)
    (pr : Bool) (st st1 : CvStatus) (w w1 : World σ) (hnd : ¬ loopDone pr st)
    (hw : WaitUntil sched d w = .ok (st1, w1)) :
    WaitUntilLoop sched d p (n + 1) pr st w
      = WaitUntilLoop sched d p n (p w1.shared) st1 (w1.afterBody p st1) := by
  simp only [WaitUntilLoop, loop_cond_true hnd, if_true, Exec.bind_run,
    WaitUntilBody_run sched d p w w1 st1 hw]

theorem WaitUntilPred_run (sched : Scheduler σ) (d : Deadline) (p : σ → Bool) (fuel : Nat)
    (w : World σ) :
    WaitUntilPred sched fuel d p w
      = WaitUntilLoop sched d p fuel (p w.shared) CvStatus.kNoTimeout
          { w with trace := w.trace ++ [Op.predicate (p w.shared)] } := rfl

theorem WaitUntilPred_iter (sched : Scheduler σ) (d : Deadline) (p : σ → Bool) (n : Nat)
    (w w1 : World σ) (st1 : CvStatus) (hp : p w.shared = false)
    (hw : WaitUntil sched d { w with trace := w.trace ++ [Op.predicate false] } = .ok (st1, w1)) :
    WaitUntilPred sched (n + 1) d p w
      = WaitUntilLoop sched d p n (p w1.shared) st1 (w1.afterBody p st1) := by
  rw [WaitUntilPred_run, hp]
  exact WaitUntilLoop_iter sched d p n false CvStatus.kNoTimeout st1 _ w1
    (by simp [loopDone]) hw

theorem WaitUntilLoop_iter_spurious (sched : Scheduler σ) (d : Deadline) (p : σ → Bool) (n : Nat)
    (w w1 : World σ) (st1 : CvStatus)
    (hw : WaitUntil sched d w = .ok (st1, w1)) :
    WaitUntilLoop sched d p (n + 1) false CvStatus.kNoTimeout w
      = WaitUntilLoop sched d p n (p w1.shared) st1 (w1.afterBody p st1) :=
  WaitUntilLoop_iter sched d p n false CvStatus.kNoTimeout st1 w w1 (by simp [loopDone]) hw

theorem WaitUntil_waited (sched : Scheduler σ) (d : Deadline) (w : World σ) (st : CvStatus)
    (hd : d.reached w.now = false) (hc : w.cancelRequested = false)
    (hm : w.waiters_.locked = false) (hl : w.lockOwns = true)
    (hs : (match (sched w.entered.asleep).source with
      | WakeupSource.kCancelRequest => some CvStatus.kCancelled
      | WakeupSource.kDeadlineTimer => some CvStatus.kTimeout
      | WakeupSource.kWaitList => some CvStatus.kNoTimeout
      | WakeupSource.kNone => none
      | WakeupSource.kBootstrap => none) = some st) :
    WaitUntil sched d w = .ok (st, w.waited sched) := by
  rw [WaitUntil_parked sched d w hd hc hm hl]
  unfold World.waited
  cases hsrc : (sched w.entered.asleep).source <;> rw [hsrc] at hs <;> simp at hs <;>
    simp [hs]

theorem WaitCall.run_waitPred_ok (sched : Scheduler σ) (fuel : Nat) (p : σ → Bool)
    (w w' : World σ) (b : Bool)
    (h : WaitUntilPred sched fuel Deadline.never p w = .ok (b, w')) :
    (WaitCall.waitPred fuel p).run sched w = .ok (Sum.inr b, w') := by
  simp only [WaitCall.run, WaitPred, Exec.bind_run, h]
  rfl

theorem WaitUntilLoop_fuel_succ (sched : Scheduler σ) (d : Deadline) (p : σ → Bool) :
    ∀ (fuel : Nat) (pr : Bool) (st : CvStatus) (w : World σ) (r : Bool × World σ),
      WaitUntilLoop sched d p fuel pr st w = .ok r →
      WaitUntilLoop sched d p (fuel + 1) pr st w = .ok r := by
  intro fuel
  induction fuel with
  | zero =>
    intro pr st w r h
    by_cases hd : loopDone pr st
    · rw [WaitUntilLoop_done sched d p _ pr st w hd] at h ⊢
      exact h
    · obtain ⟨n, _, _, hn, _⟩ := WaitUntilLoop_step sched d p 0 pr st w r.2 r.1 hd h
      omega
  | succ n ih =>
    intro pr st w r h
    by_cases hd : loopDone pr st
    · rw [WaitUntilLoop_done sched d p _ pr st w hd] at h ⊢
      exact h
    · obtain ⟨m, st1, w1, hm, hw, hloop⟩ :=
        WaitUntilLoop_step sched d p (n + 1) pr st w r.2 r.1 hd h
      have hmn : m = n := by omega
      subst hmn
      rw [WaitUntilLoop_iter sched d p (m + 1) pr st st1 w w1 hd hw]
      exact ih _ _ _ _ hloop

/-- The loop bound is no part of the result: a call of the predicate form
that returns under one bound returns the same under the next. -/
theorem WaitUntilPred_fuel_succ (sched : Scheduler σ) (d : Deadline) (p : σ → Bool)
    (fuel : Nat) (w : World σ) (r : Bool × World σ)
    (h : WaitUntilPred sched fuel d p w = .ok r) :
    WaitUntilPred sched (fuel + 1) d p w = .ok r := by
  rw [WaitUntilPred_run] at h ⊢
  exact WaitUntilLoop_fuel_succ sched d p fuel _ _ _ r h

/-! ## The claims -/

/-- C1, lock invariant: whichever wait overload is called (`Wait(lock)`,
`Wait(lock, pred)`, `WaitUntil(lock, deadline)`, `WaitUntil(lock, deadline,
pred)`) with the user lock held, and with `Sleep` running `AfterAsleep` once
and then `BeforeAwake` once, the user lock is held when the call returns,
whatever the result. -/
theorem lock_held_on_return (sched : Scheduler σ) (call : WaitCall σ) (w w' : World σ)
    (r : CvStatus ⊕ Bool) (hl : w.lockOwns = true) (h : call.run sched w = .ok (r, w')) :
    w'.lockOwns = true := by
  cases call with
  | wait =>
    simp only [WaitCall.run, Exec.bind_run, Wait] at h
    cases hw : WaitUntil sched Deadline.never w with
    | error e => simp [hw] at h
    | ok x =>
      obtain ⟨st, w1⟩ := x
      simp [hw, Exec.pure_run] at h
      obtain ⟨_, _, _, _, _, hf⟩ := WaitUntil_frame sched _ w w1 st hw
      rw [← h.2]
      exact hf hl
  | waitPred fuel predicate =>
    simp only [WaitCall.run, Exec.bind_run, WaitPred] at h
    cases hw : WaitUntilPred sched fuel Deadline.never predicate w with
    | error e => simp [hw] at h
    | ok x =>
      obtain ⟨b, w1⟩ := x
      simp [hw, Exec.pure_run] at h
      obtain ⟨_, _, _, _, hf⟩ := WaitUntilPred_trace sched _ predicate fuel w w1 b hw
      rw [← h.2]
      exact hf hl
  | waitUntil deadline =>
    simp only [WaitCall.run, Exec.bind_run] at h
    cases hw : WaitUntil sched deadline w with
    | error e => simp [hw] at h
    | ok x =>
      obtain ⟨st, w1⟩ := x
      simp [hw, Exec.pure_run] at h
      obtain ⟨_, _, _, _, _, hf⟩ := WaitUntil_frame sched _ w w1 st hw
      rw [← h.2]
      exact hf hl
  | waitUntilPred fuel deadline predicate =>
    simp only [WaitCall.run, Exec.bind_run] at h
    cases hw : WaitUntilPred sched fuel deadline predicate w with
    | error e => simp [hw] at h
    | ok x =>
      obtain ⟨b, w1⟩ := x
      simp [hw, Exec.pure_run] at h
      obtain ⟨_, _, _, _, hf⟩ := WaitUntilPred_trace sched _ predicate fuel w w1 b hw
      rw [← h.2]
      exact hf hl

/-- Witness of C1: task 7 calls `Wait(lock, pred)` with the flag unset, parks,
is woken with the flag set and returns `true` with the lock held. -/
theorem lock_held_on_return_witness :
    ∃ w', (WaitCall.waitPred 1 id).run (exampleScheduler WakeupSource.kWaitList true)
        exampleWorld = .ok (Sum.inr true, w') ∧ w'.lockOwns = true := by
  have hw : WaitUntil (exampleScheduler WakeupSource.kWaitList true) Deadline.never
      { exampleWorld with trace := exampleWorld.trace ++ [Op.predicate false] }
      = .ok (CvStatus.kNoTimeout, World.waited (exampleScheduler WakeupSource.kWaitList true)
          { exampleWorld with trace := exampleWorld.trace ++ [Op.predicate false] }) :=
    WaitUntil_waited _ _ _ _ rfl rfl rfl rfl rfl
  have hp := (WaitUntilPred_iter _ _ id 0 exampleWorld _ _ rfl hw).trans
    (WaitUntilLoop_done _ _ _ _ _ _ _ (Or.inl rfl))
  have h := WaitCall.run_waitPred_ok _ _ _ _ _ _ hp
  exact ⟨_, h, lock_held_on_return _ _ _ _ _ rfl h⟩

/-- C3, status mapping: a call `WaitUntil(lock, deadline)` whose deadline is
not reached and whose task has no pending cancellation constructs the
strategy and calls `Sleep`; when `Sleep` returns the wake source `src`, the
call runs the destructor of the strategy and returns `kNoTimeout` for
`kWaitList`, `kTimeout` for `kDeadlineTimer` and `kCancelled` for
`kCancelRequest`. -/
theorem status_mapping (sched : Scheduler σ) (d : Deadline) (w w1 w2 : World σ)
    (wm wm' : CvWaitStrategy) (src : WakeupSource)
    (hd : d.reached w.now = false) (hc : w.cancelRequested = false)
    (hctor : CvWaitStrategy.ctor d w.current
      { w with trace := w.trace ++ [Op.isReached, Op.getCurrentTaskContext, Op.shouldCancel] }
        = .ok (wm, w1))
    (hsleep : Sleep sched wm w1 = .ok ((src, wm'), w2)) :
    ∃ w', wm'.dtor w2 = .ok ((), w')
      ∧ (src = WakeupSource.kWaitList → WaitUntil sched d w = .ok (CvStatus.kNoTimeout, w'))
      ∧ (src = WakeupSource.kDeadlineTimer → WaitUntil sched d w = .ok (CvStatus.kTimeout, w'))
      ∧ (src = WakeupSource.kCancelRequest
          → WaitUntil sched d w = .ok (CvStatus.kCancelled, w')) := by
  obtain ⟨hm, hl, hs, h2, hwm⟩ := parks_inv sched d w w1 w2 wm wm' src hctor hsleep
  subst hwm h2
  refine ⟨_, dtor_unlocked_run d w.current _, ?_, ?_, ?_⟩ <;> intro hsrc <;>
    rw [WaitUntil_parked sched d w hd hc hm hl, ← hs, hsrc]

/-- Witness of C3: the deadline timer wakes task 7, the call returns
`kTimeout`. -/
theorem status_mapping_witness :
    ∃ w', WaitUntil (exampleScheduler WakeupSource.kDeadlineTimer false) ⟨some 11⟩ exampleWorld
      = .ok (CvStatus.kTimeout, w') :=
  (status_mapping (exampleScheduler WakeupSource.kDeadlineTimer false) ⟨some 11⟩ exampleWorld
    _ _ _ _ WakeupSource.kDeadlineTimer rfl rfl rfl rfl).elim
    (fun w' h => ⟨w', h.2.2.1 rfl⟩)

/-- C4, return value of the predicate form.  When the predicate holds on entry
the call returns `true` after that single evaluation, whatever the deadline
and the cancellation state, for every loop bound.  Whenever the call returns,
its result is the last predicate evaluation of its trace; the non-predicate
wait was entered once per recorded iteration; and every iteration but the
last had status `kNoTimeout` with a false predicate, so that an iteration
whose wait ended with `kTimeout` or `kCancelled` is the last one and its
predicate value is the result. -/
theorem predicate_form_return_value (sched : Scheduler σ) (d : Deadline) (p : σ → Bool) :
    (∀ (fuel : Nat) (w : World σ), p w.shared = true →
      WaitUntilPred sched fuel d p w
        = .ok (true, { w with trace := w.trace ++ [Op.predicate true] }))
    ∧ (∀ (fuel : Nat) (w w' : World σ) (b : Bool),
      WaitUntilPred sched fuel d p w = .ok (b, w') →
      ∃ ops, w'.trace = w.trace ++ ops ∧ lastPredicate ops = some b
        ∧ ops.count Op.isReached = (iterations ops).length
        ∧ ∀ init last, iterations ops = init ++ [last] →
            (∀ x ∈ init, x = (CvStatus.kNoTimeout, false)) ∧ b = last.2) := by
  constructor
  · intro fuel w hp
    simp only [WaitUntilPred, Exec.bind_run, evalPredicate_run, hp]
    exact WaitUntilLoop_done sched d p fuel true _ _ (Or.inl rfl)
  · intro fuel w w' b h
    obtain ⟨ops, h1, h2, _, _⟩ := WaitUntilPred_trace sched d p fuel w w' b h
    have hi : iterations (Op.predicate (p w.shared) :: ops) = iterations ops :=
      iterations_cons_of_not_status _ _ (by intro s hs; cases hs)
    refine ⟨Op.predicate (p w.shared) :: ops, h1, ?_, ?_, ?_⟩
    · have hl := LoopRun_lastPredicate h2
      change lastPredicate ([Op.predicate (p w.shared)] ++ ops) = some b
      rw [lastPredicate_append]
      cases ho : lastPredicate ops with
      | none => simpa [ho, lastPredicate] using hl
      | some r => simpa [ho] using hl
    · rw [hi, List.count_cons, (LoopRun_counts h2).1]
      simp
    · rw [hi]
      exact LoopRun_iterations_last h2

/-- Witness of C4: the flag is unset on entry, the wait times out with the flag
still unset, and the call returns `false`, the last predicate evaluation. -/
theorem predicate_form_return_value_witness :
    ∃ w' ops, WaitUntilPred (exampleScheduler WakeupSource.kDeadlineTimer false) 1 ⟨some 11⟩ id
        exampleWorld = .ok (false, w')
      ∧ w'.trace = exampleWorld.trace ++ ops ∧ lastPredicate ops = some false := by
  have hw : WaitUntil (exampleScheduler WakeupSource.kDeadlineTimer false) ⟨some 11⟩
      { exampleWorld with trace := exampleWorld.trace ++ [Op.predicate false] }
      = .ok (CvStatus.kTimeout, World.waited (exampleScheduler WakeupSource.kDeadlineTimer false)
          { exampleWorld with trace := exampleWorld.trace ++ [Op.predicate false] }) :=
    WaitUntil_waited _ _ _ _ rfl rfl rfl rfl rfl
  have h := (WaitUntilPred_iter _ _ id 0 exampleWorld _ _ rfl hw).trans
    (WaitUntilLoop_done _ _ _ _ _ _ _ (Or.inr (by decide)))
  obtain ⟨ops, h1, h2, _⟩ := (predicate_form_return_value _ _ _).2 _ _ _ _ h
  exact ⟨_, ops, h, h1, h2⟩

/-- C5, cancellation short-circuit: when a cancellation request is pending on
the calling task, `Wait(lock)`, and `WaitUntil(lock, deadline)` with a
deadline not yet reached, return `kCancelled` after reading the deadline, the
current task context and its cancellation flag and nothing else: `Sleep` is
not called, no strategy is constructed (no waiters token, no wait-list lock),
the wait list is unchanged and the user lock is not released. -/
theorem cancelled_without_parking (sched : Scheduler σ) (w : World σ)
    (hc : w.cancelRequested = true) :
    Wait sched w = .ok (CvStatus.kCancelled,
        { w with trace := w.trace ++ [Op.isReached, Op.getCurrentTaskContext, Op.shouldCancel] })
    ∧ ∀ d : Deadline, d.reached w.now = false →
      WaitUntil sched d w = .ok (CvStatus.kCancelled,
        { w with
          trace := w.trace ++ [Op.isReached, Op.getCurrentTaskContext, Op.shouldCancel] }) :=
  ⟨WaitUntil_cancelled sched Deadline.never w rfl hc,
    fun d hd => WaitUntil_cancelled sched d w hd hc⟩

/-- Witness of C5: a cancelled task 7 calls `Wait(lock)`. -/
theorem cancelled_without_parking_witness :
    Wait (exampleScheduler WakeupSource.kWaitList true)
        { exampleWorld with cancelRequested := true }
      = .ok (CvStatus.kCancelled, { exampleWorld with
          cancelRequested := true,
          trace := [Op.isReached, Op.getCurrentTaskContext, Op.shouldCancel] }) :=
  (cancelled_without_parking (exampleScheduler WakeupSource.kWaitList true)
    { exampleWorld with cancelRequested := true } rfl).1

/-- C6, deadline short-circuit: when the deadline is reached on entry,
`WaitUntil(lock, deadline)` returns `kTimeout` after reading the deadline and
nothing else, whatever the cancellation state: the task context is not
consulted, `Sleep` is not called, the wait list is unchanged and the user
lock is not released. -/
theorem reached_deadline_returns_timeout (sched : Scheduler σ) (d : Deadline) (w : World σ)
    (hd : d.reached w.now = true) :
    WaitUntil sched d w
      = .ok (CvStatus.kTimeout, { w with trace := w.trace ++ [Op.isReached] }) :=
  WaitUntil_reached sched d w hd

/-- Witness of C6: the deadline 10 is reached at time 10, with a cancellation
request pending. -/
theorem reached_deadline_returns_timeout_witness :
    WaitUntil (exampleScheduler WakeupSource.kWaitList true) ⟨some 10⟩
        { exampleWorld with cancelRequested := true }
      = .ok (CvStatus.kTimeout, { exampleWorld with
          cancelRequested := true, trace := [Op.isReached] }) :=
  reached_deadline_returns_timeout (exampleScheduler WakeupSource.kWaitList true) ⟨some 10⟩
    { exampleWorld with cancelRequested := true } rfl

/-- C7, `NotifyOne`: with the sleepies counter equal to the queue length, on
an empty list the call reads the counter and does nothing else (no wait-list
lock, no state change); on a non-empty list it takes the wait-list lock,
calls `WakeupOne` once, which unlinks and signals the head of the queue and
nobody else, and releases the lock.  The user lock is not touched. -/
theorem notify_one_wakes_head (w : World σ)
    (hs : w.waiters_.sleepies = w.waiters_.queue.length) :
    (w.waiters_.queue = [] →
      NotifyOne w = .ok ((), { w with trace := w.trace ++ [Op.getCountOfSleepies] }))
    ∧ (∀ t rest, w.waiters_.queue = t :: rest → w.waiters_.locked = false →
      NotifyOne w = .ok ((), { w with
        waiters_ := { w.waiters_ with queue := rest, sleepies := rest.length },
        signalled := w.signalled ++ [t],
        trace := w.trace
          ++ [Op.getCountOfSleepies, Op.waitersLock, Op.wakeupOne, Op.waitersUnlock] })) := by
  constructor
  · intro hq
    have h0 : w.waiters_.sleepies = 0 := by rw [hs, hq]; rfl
    simp [NotifyOne, Exec.bind_run, WaitList.GetCountOfSleepies, Exec.note_run, h0,
      Exec.pure_run]
  · intro t rest hq hm
    have h1 : w.waiters_.sleepies = rest.length + 1 := by rw [hs, hq]; rfl
    simp [NotifyOne, Exec.bind_run, WaitList.GetCountOfSleepies, Exec.note_run, h1,
      Exec.pure_run, WaitList.Lock.ctor, hm, WaitList.WakeupOne, UASSERT_true_run, hq,
      WaitList.Lock.dtor, WaitList.Lock.unlock]

/-- Witness of C7: tasks 3 and 4 sleep, `NotifyOne` signals task 3. -/
theorem notify_one_wakes_head_witness :
    NotifyOne { exampleWorld with waiters_ := ⟨[3, 4], 2, false, 0⟩ }
      = .ok ((), { exampleWorld with
          waiters_ := ⟨[4], 1, false, 0⟩,
          signalled := [3],
          trace := [Op.getCountOfSleepies, Op.waitersLock, Op.wakeupOne, Op.waitersUnlock] }) :=
  (notify_one_wakes_head { exampleWorld with waiters_ := ⟨[3, 4], 2, false, 0⟩ } rfl).2
    3 [4] rfl rfl

/-- C8, spurious-wakeup accounting.  Whenever the predicate form returns, the
number of `AccountSpuriousWakeup` calls in its trace, and the growth of the
counter, equal the number of iterations whose wait returned `kNoTimeout` and
whose predicate, evaluated right after it, was false.  One run of the loop
body calls it once and adds one in exactly that case, and does not call it
otherwise. -/
theorem spurious_wakeup_accounting (sched : Scheduler σ) (d : Deadline) (p : σ → Bool) :
    (∀ (fuel : Nat) (w w' : World σ) (b : Bool),
      WaitUntilPred sched fuel d p w = .ok (b, w') →
      ∃ ops, w'.trace = w.trace ++ ops
        ∧ ops.count Op.accountSpuriousWakeup = (iterations ops).countP isSpurious
        ∧ w'.spuriousWakeups = w.spuriousWakeups + (iterations ops).countP isSpurious)
    ∧ (∀ (w w2 : World σ) (pr : Bool) (st : CvStatus),
      WaitUntilBody sched d p w = .ok ((pr, st), w2) →
      ∃ w1 ops, WaitUntil sched d w = .ok (st, w1) ∧ pr = p w1.shared
        ∧ w2.trace = w1.trace ++ Op.status st :: Op.predicate pr :: ops
        ∧ (st = CvStatus.kNoTimeout ∧ pr = false →
            ops = [Op.accountSpuriousWakeup] ∧ w2.spuriousWakeups = w.spuriousWakeups + 1)
        ∧ (¬ (st = CvStatus.kNoTimeout ∧ pr = false) →
            ops = [] ∧ w2.spuriousWakeups = w.spuriousWakeups)) := by
  constructor
  · intro fuel w w' b h
    obtain ⟨ops, h1, h2, h3, _⟩ := WaitUntilPred_trace sched d p fuel w w' b h
    have hi : iterations (Op.predicate (p w.shared) :: ops) = iterations ops :=
      iterations_cons_of_not_status _ _ (by intro s hs; cases hs)
    refine ⟨Op.predicate (p w.shared) :: ops, h1, ?_, ?_⟩
    · rw [hi, List.count_cons, (LoopRun_counts h2).2]
      simp
    · rw [hi, h3, (LoopRun_counts h2).2]
  · intro w w2 pr st h
    obtain ⟨w1, h1, h2, h3⟩ := WaitUntilBody_inv sched d p w w2 (pr, st) h
    obtain ⟨_, _, _, _, hsp, _⟩ := WaitUntil_frame sched d w w1 st h1
    simp only at h1 h2 h3
    by_cases hc : st = CvStatus.kNoTimeout ∧ pr = false
    · refine ⟨w1, [Op.accountSpuriousWakeup], h1, h2, ?_, fun _ => ?_, fun hn => absurd hc hn⟩
      · rw [h3, h2]
        simp [World.afterBody, ← h2, hc.1, hc.2]
      · rw [h3, ← hsp]
        simp [World.afterBody, ← h2, hc.1, hc.2]
    · refine ⟨w1, [], h1, h2, ?_, fun hy => absurd hy hc, fun _ => ?_⟩
      · have hc2 : (!p w1.shared && st == CvStatus.kNoTimeout) = false := by
          rw [← h2]
          cases pr <;> cases st <;> simp at hc ⊢
        rw [h3, h2]
        simp [World.afterBody, hc2]
      · have hc2 : (!p w1.shared && st == CvStatus.kNoTimeout) = false := by
          rw [← h2]
          cases pr <;> cases st <;> simp at hc ⊢
        rw [h3, ← hsp]
        simp [World.afterBody, hc2]

/-- Witness of C8: one spurious wake-up followed by a wake-up with the flag
set; the counter goes from 0 to 1 and the call returns `true`. -/
theorem spurious_wakeup_accounting_witness :
    ∃ w' ops, WaitUntilPred spuriousScheduler 2 Deadline.never id exampleWorld = .ok (true, w')
      ∧ w'.trace = exampleWorld.trace ++ ops
      ∧ w'.spuriousWakeups = exampleWorld.spuriousWakeups + (iterations ops).countP isSpurious
      ∧ w'.spuriousWakeups = 1 := by
  have hw1 : WaitUntil spuriousScheduler Deadline.never
      { exampleWorld with trace := exampleWorld.trace ++ [Op.predicate false] }
      = .ok (CvStatus.kNoTimeout, World.waited spuriousScheduler
          { exampleWorld with trace := exampleWorld.trace ++ [Op.predicate false] }) :=
    WaitUntil_waited _ _ _ _ rfl rfl rfl rfl rfl
  have hw2 : WaitUntil spuriousScheduler Deadline.never
      (World.afterBody id CvStatus.kNoTimeout (World.waited spuriousScheduler
          { exampleWorld with trace := exampleWorld.trace ++ [Op.predicate false] }))
      = .ok (CvStatus.kNoTimeout, World.waited spuriousScheduler
        (World.afterBody id CvStatus.kNoTimeout (World.waited spuriousScheduler
          { exampleWorld with trace := exampleWorld.trace ++ [Op.predicate false] }))) :=
    WaitUntil_waited _ _ _ _ rfl rfl rfl rfl rfl
  have h := ((WaitUntilPred_iter _ _ id 1 exampleWorld _ _ rfl hw1).trans
      (WaitUntilLoop_iter_spurious _ _ id 0 _ _ _ hw2)).trans
      (WaitUntilLoop_done _ _ _ _ _ _ _ (Or.inl rfl))
  obtain ⟨ops, h1, _, h3⟩ := (spurious_wakeup_accounting _ _ _).1 _ _ _ _ h
  exact ⟨_, ops, h, h1, h3, rfl⟩

/-- C9, invalid wake source: when the `Sleep` called by
`WaitUntil(lock, deadline)` returns `kNone` or `kBootstrap`, the call fails
the fatal assertion and returns no status. -/
theorem invalid_wakeup_source_aborts (sched : Scheduler σ) (d : Deadline) (w w1 w2 : World σ)
    (wm wm' : CvWaitStrategy) (src : WakeupSource)
    (hd : d.reached w.now = false) (hc : w.cancelRequested = false)
    (hctor : CvWaitStrategy.ctor d w.current
      { w with trace := w.trace ++ [Op.isReached, Op.getCurrentTaskContext, Op.shouldCancel] }
        = .ok (wm, w1))
    (hsleep : Sleep sched wm w1 = .ok ((src, wm'), w2))
    (hsrc : src = WakeupSource.kNone ∨ src = WakeupSource.kBootstrap) :
    WaitUntil sched d w = .error Fault.abort := by
  obtain ⟨hm, hl, hs, _, _⟩ := parks_inv sched d w w1 w2 wm wm' src hctor hsleep
  rw [WaitUntil_parked sched d w hd hc hm hl, ← hs]
  rcases hsrc with h | h <;> rw [h]

/-- Witness of C9: `Sleep` returns `kBootstrap` to task 7. -/
theorem invalid_wakeup_source_aborts_witness :
    WaitUntil (exampleScheduler WakeupSource.kBootstrap false) Deadline.never exampleWorld
      = .error Fault.abort :=
  invalid_wakeup_source_aborts (exampleScheduler WakeupSource.kBootstrap false) Deadline.never
    exampleWorld _ _ _ _ WakeupSource.kBootstrap rfl rfl rfl rfl (Or.inr rfl)

/-- C10, hook protocol order: a strategy is constructed for the running task
with the wait-list mutex free and the user lock held; then one `AfterAsleep`,
the suspension, and one `BeforeAwake` succeed, and the operations they perform
on the wait list and the user lock are, in order: `Append(current)`, release
of the wait-list lock, release of the user lock, acquisition of the wait-list
lock, `Remove(current)`, release of the wait-list lock, acquisition of the
user lock.  The user lock is acquired only while the wait-list lock is not
held.  After `AfterAsleep` the task is queued and both locks are released;
after `BeforeAwake` the wait-list lock is free and the user lock is held. -/
theorem hook_protocol_order (sched : Scheduler σ) (d : Deadline) (w0 : World σ)
    (hm : w0.waiters_.locked = false) (hl : w0.lockOwns = true) :
    ∃ wm w wm1 w1 src w2 w3 ops,
      CvWaitStrategy.ctor d w0.current w0 = .ok (wm, w)
      ∧ w.waiters_.locked = true ∧ w.lockOwns = true
      ∧ wm.AfterAsleep w = .ok (wm1, w1)
      ∧ suspended sched w1 = .ok (src, w2)
      ∧ wm1.BeforeAwake w2 = .ok ((), w3)
      ∧ w3.trace = w.trace ++ ops
      ∧ ops.filter Op.isSync
        = [Op.append w0.current, Op.waitersUnlock, Op.mutexUnlock,
            Op.waitersLock, Op.remove w0.current, Op.waitersUnlock, Op.mutexLock]
      ∧ mutexLockOutsideWaitersLock true ops = true
      ∧ w1.waiters_.queue = w0.waiters_.queue ++ [w0.current]
      ∧ w1.waiters_.locked = false ∧ w1.lockOwns = false
      ∧ w3.waiters_.locked = false ∧ w3.lockOwns = true := by
  have h1 : CvWaitStrategy.ctor d w0.current w0 = .ok (⟨d, ⟨true⟩, w0.current⟩,
      { w0 with
        waiters_ := { w0.waiters_ with
          locked := true, waitersScope := w0.waiters_.waitersScope + 1 },
        trace := w0.trace ++ [Op.waitersScopeEnter, Op.waitersLock] }) := by
    simp [CvWaitStrategy.ctor, Exec.bind_run, WaitList.WaitersScopeCounter.ctor,
      WaitList.Lock.ctor, Exec.note_run, hm, Exec.pure_run]
  refine ⟨_, _, _, _, _, _, _,
    [Op.getCurrentTaskContext, Op.append w0.current, Op.waitersUnlock, Op.mutexUnlock,
      Op.getCurrentTaskContext, Op.waitersLock, Op.remove w0.current, Op.waitersUnlock,
      Op.mutexLock],
    h1, rfl, hl, AfterAsleep_run _ _ rfl rfl hl, rfl,
    BeforeAwake_run _ _ rfl rfl rfl, ?_, ?_, rfl, rfl, rfl, rfl, rfl, rfl⟩
  · simp
  · simp [List.filter, Op.isSync]

/-- Witness of C10: the hooks of task 7 in the example world. -/
theorem hook_protocol_order_witness :
    ∃ wm w wm1 w1 src w2 w3 ops,
      CvWaitStrategy.ctor Deadline.never exampleWorld.current exampleWorld = .ok (wm, w)
      ∧ w.waiters_.locked = true ∧ w.lockOwns = true
      ∧ wm.AfterAsleep w = .ok (wm1, w1)
      ∧ suspended (exampleScheduler WakeupSource.kWaitList true) w1 = .ok (src, w2)
      ∧ wm1.BeforeAwake w2 = .ok ((), w3)
      ∧ w3.trace = w.trace ++ ops
      ∧ ops.filter Op.isSync
        = [Op.append exampleWorld.current, Op.waitersUnlock, Op.mutexUnlock,
            Op.waitersLock, Op.remove exampleWorld.current, Op.waitersUnlock, Op.mutexLock]
      ∧ mutexLockOutsideWaitersLock true ops = true
      ∧ w1.waiters_.queue = exampleWorld.waiters_.queue ++ [exampleWorld.current]
      ∧ w1.waiters_.locked = false ∧ w1.lockOwns = false
      ∧ w3.waiters_.locked = false ∧ w3.lockOwns = true :=
  hook_protocol_order (exampleScheduler WakeupSource.kWaitList true) Deadline.never
    exampleWorld rfl rfl

/-! ## The system of tasks -/

namespace Interleaving

theorem OwnerStep.notifier {i : Nat} {before after : Option Task} (h : OwnerStep i before after) :
    after = some Task.notifier ↔ before = some Task.notifier := by
  rcases h with h | ⟨h1, h2⟩ | ⟨h1, h2⟩
  · rw [h]
  · rw [h1, h2]
    constructor <;> intro h <;> cases h
  · rw [h1, h2]
    constructor <;> intro h <;> cases h

end Interleaving

end impl
end engine
